import Mathlib

/-!
Verification of the MyPermobil API client.

This development shallowly embeds the core of `mypermobil.py` and `const.py`:
the `cacheable` single-flight cache decorator (as a small-step transition
system over cooperative tasks), cache-key derivation (`func.__name__ +
str(args) + str(kwargs)`), the `ENDPOINT_LOOKUP` table construction, the
`request_item` endpoint validation, the session state machine (setters,
`self_authenticate`, `deauthenticate`) and `request_application_token`.
-/

/-! ## Python values

A small universe of Python values as they occur in the client: strings,
ints, bools, `None`, plain objects (their default `repr` exposes only the
class path and the address), and string-keyed dicts. -/

mutual

inductive PyVal where
  | str (s : String)
  | int (n : Int)
  | bool (b : Bool)
  | none
  | obj (addr : Nat)
  | dict (d : PyDict)
deriving DecidableEq

inductive PyDict where
  | nil
  | cons (k : String) (v : PyVal) (rest : PyDict)
deriving DecidableEq

end

/-- Python truthiness (`if x:`) on the embedded value universe. -/
def truthy : PyVal → Bool
  | .str s => s ≠ ""
  | .int n => n ≠ 0
  | .bool b => b
  | .none => false
  | .obj _ => true
  | .dict d => d matches PyDict.cons ..

/-- Lookup in a Python dict (`d.get(k)`). -/
def PyDict.get : PyDict → String → Option PyVal
  | .nil, _ => Option.none
  | .cons k v rest, x => if k = x then some v else rest.get x

/-! ## Python `repr` of values, tuples and dicts

`cacheable` derives its cache key as `func.__name__ + str(args) + str(kwargs)`
(mypermobil.py line 59).  `str` of a tuple or dict applies `repr` to the
elements, so we model `repr` on the value universe.  Special characters are
written with `Char.ofNat` codes throughout. -/

def bslashC : Char := Char.ofNat 92

def squoteC : Char := Char.ofNat 39

def dquoteC : Char := Char.ofNat 34

def nlC : Char := Char.ofNat 10

def tabC : Char := Char.ofNat 9

def crC : Char := Char.ofNat 13

def lbraceC : Char := Char.ofNat 123

def rbraceC : Char := Char.ofNat 125

/-- Quote character chosen by Python `repr` for a string: a double quote when
the string contains a single quote but no double quote, else a single quote. -/
def quoteChoice (s : String) : Char :=
  if s.data.contains squoteC && !(s.data.contains dquoteC) then dquoteC else squoteC

/-- Escaping of one character inside a Python string repr quoted by `q`. -/
def escChar (q c : Char) : List Char :=
  if c = bslashC then [bslashC, bslashC]
  else if c = q then [bslashC, q]
  else if c = nlC then [bslashC, 'n']
  else if c = tabC then [bslashC, 't']
  else if c = crC then [bslashC, 'r']
  else [c]

/-- Body of a Python string repr: every character escaped. -/
def escBody (q : Char) (cs : List Char) : List Char :=
  (cs.map (escChar q)).flatten

/-- Python `repr` of a string, as a character list. -/
def reprStrL (s : String) : List Char :=
  quoteChoice s :: (escBody (quoteChoice s) s.data ++ [quoteChoice s])

/-- Decimal digit character. -/
def digitC : Nat → Char
  | 0 => '0'
  | 1 => '1'
  | 2 => '2'
  | 3 => '3'
  | 4 => '4'
  | 5 => '5'
  | 6 => '6'
  | 7 => '7'
  | 8 => '8'
  | 9 => '9'
  | _ => '0'

/-- Decimal digits of a natural number, most significant first. -/
def decChars (n : Nat) : List Char :=
  if _h : n < 10 then [digitC n]
  else decChars (n / 10) ++ [digitC (n % 10)]
  decreasing_by exact Nat.div_lt_self (by omega) (by omega)

/-- Hexadecimal digit character. -/
def hexDigitC : Nat → Char
  | 0 => '0'
  | 1 => '1'
  | 2 => '2'
  | 3 => '3'
  | 4 => '4'
  | 5 => '5'
  | 6 => '6'
  | 7 => '7'
  | 8 => '8'
  | 9 => '9'
  | 10 => 'a'
  | 11 => 'b'
  | 12 => 'c'
  | 13 => 'd'
  | 14 => 'e'
  | 15 => 'f'
  | _ => '0'

/-- Hexadecimal digits of a natural number, most significant first. -/
def hexChars (n : Nat) : List Char :=
  if _h : n < 16 then [hexDigitC n]
  else hexChars (n / 16) ++ [hexDigitC (n % 16)]
  decreasing_by exact Nat.div_lt_self (by omega) (by omega)

/-- Python `repr` of an integer. -/
def intChars (n : Int) : List Char :=
  if n < 0 then '-' :: decChars (-n).toNat else decChars n.toNat

/-- Default `repr` of a `MyPermobil` object (the class defines `__str__` but
no `__repr__`, so tuples of arguments serialize it with the default object
repr, which exposes the class path and the instance address). -/
def objChars (addr : Nat) : List Char :=
  "<mypermobil.mypermobil.MyPermobil object at 0x".data ++ hexChars addr ++ ['>']

mutual

/-- Python `repr` of a value. -/
def reprVal : PyVal → List Char
  | .str s => reprStrL s
  | .int n => intChars n
  | .bool b => if b then "True".data else "False".data
  | .none => "None".data
  | .obj a => objChars a
  | .dict d => lbraceC :: (reprEntries d ++ [rbraceC])

/-- Comma-separated `repr(k): repr(v)` entries of a dict. -/
def reprEntries : PyDict → List Char
  | .nil => []
  | .cons k v .nil => reprStrL k ++ (':' :: ' ' :: reprVal v)
  | .cons k v (.cons k2 v2 r) =>
      reprStrL k ++ (':' :: ' ' :: reprVal v) ++
        (',' :: ' ' :: reprEntries (.cons k2 v2 r))

end

/-- Comma-separated reprs of a list of values. -/
def reprListSep : List PyVal → List Char
  | [] => []
  | [v] => reprVal v
  | v :: v2 :: rest => reprVal v ++ (',' :: ' ' :: reprListSep (v2 :: rest))

/-- Interior of Python `str` of a tuple (singleton tuples get a trailing
comma). -/
def tupleMid : List PyVal → List Char
  | [] => []
  | [v] => reprVal v ++ [',']
  | v :: v2 :: rest => reprListSep (v :: v2 :: rest)

/-- Python `str` of a tuple of values, as a character list. -/
def reprTupleL (args : List PyVal) : List Char :=
  '(' :: (tupleMid args ++ [')'])

/-- Python `str` of a kwargs dict, as a character list. -/
def reprKwargsL (kw : PyDict) : List Char :=
  lbraceC :: (reprEntries kw ++ [rbraceC])

/-- Python `str(args)` for a tuple of positional arguments. -/
def strOfTuple (args : List PyVal) : String := String.mk (reprTupleL args)

/-- Python `str(kwargs)` for a dict of keyword arguments. -/
def strOfKwargs (kw : PyDict) : String := String.mk (reprKwargsL kw)

/-- Cache key derivation of the `cacheable` decorator:
`key = func.__name__ + str(args) + str(kwargs)` (mypermobil.py line 59). -/
def cacheKey (fname : String) (args : List PyVal) (kwargs : PyDict) : String :=
  fname ++ strOfTuple args ++ strOfKwargs kwargs

/-! ### A quote-aware bracket scanner

Used to show that the concatenation in `cacheKey` is unambiguous: a tuple
repr never occurs as a proper prefix of another tuple repr followed by more
text, because parentheses balance outside of string literals. -/

/-- Scanner state: inside a string literal (and which quote opened it),
whether the previous character was an unconsumed backslash, and the current
parenthesis depth. -/
structure ScanSt where
  instr : Option Char
  esc : Bool
  depth : Nat
deriving DecidableEq

/-- One scanner step. -/
def scan1 (st : ScanSt) (c : Char) : ScanSt :=
  match st.instr with
  | some q =>
    if st.esc then { st with esc := false }
    else if c = bslashC then { st with esc := true }
    else if c = q then { st with instr := Option.none }
    else st
  | Option.none =>
    if c = '(' then { st with depth := st.depth + 1 }
    else if c = ')' then { st with depth := st.depth - 1 }
    else if c = squoteC ∨ c = dquoteC then { instr := some c, esc := false, depth := st.depth }
    else st

/-- Scan a character list. -/
def scanL (st : ScanSt) (cs : List Char) : ScanSt := cs.foldl scan1 st

/-- Neutral scanner state at depth `d`. -/
def baseSt (d : Nat) : ScanSt := ⟨Option.none, false, d⟩

/-- The state is inside a string literal or at depth at least `d`. -/
def AboveAt (st : ScanSt) (d : Nat) : Prop := st.instr.isSome = true ∨ d ≤ st.depth

/-- A segment: scanning it from the neutral state at depth `d` returns to
that state, and never dips below depth `d` outside of string literals. -/
def Seg (cs : List Char) (d : Nat) : Prop :=
  scanL (baseSt d) cs = baseSt d ∧ ∀ p q, cs = p ++ q → AboveAt (scanL (baseSt d) p) d

/-- Strict interior: every proper nonempty prefix leaves the scanner inside a
string literal or strictly above depth `d`. -/
def StrictInner (cs : List Char) (d : Nat) : Prop :=
  ∀ p q, cs = p ++ q → p ≠ [] → q ≠ [] →
    ((scanL (baseSt d) p).instr.isSome = true ∨ d + 1 ≤ (scanL (baseSt d) p).depth)

/-- Characters that do not affect the scanner from a neutral state. -/
def plainCharB (c : Char) : Bool :=
  !(c = '(' || c = ')' || c = squoteC || c = dquoteC)

/-! ## Errors

All Permobil exceptions carry a message; `KeyError` models Python's uncaught
dictionary failure in `request_item`. -/

/-- Exception classes raised by the client. -/
inductive ErrClass where
  | clientExc
  | apiExc
  | connectionExc
  | keyErrorExc
deriving DecidableEq

/-- A raised (or cached) Python exception: its class and its argument. -/
structure PyErr where
  cls : ErrClass
  msg : PyVal
deriving DecidableEq

/-- `MyPermobilClientException(msg)`. -/
def MyPermobilClientException (msg : String) : PyErr :=
  ⟨.clientExc, .str msg⟩

/-- `MyPermobilAPIException(arg)` (the argument need not be a string). -/
def MyPermobilAPIException (msg : PyVal) : PyErr :=
  ⟨.apiExc, msg⟩

/-- Python `KeyError(key)`. -/
def KeyErrorExc (key : String) : PyErr :=
  ⟨.keyErrorExc, .str key⟩

/-! ## The `cacheable` single-flight cache (mypermobil.py lines 36-89)

The decorator shares a process-wide `CACHE` (value or exception per key,
with per-entry expiry) and `CACHE_LOCKS` (an `asyncio.Event` per in-flight
key).  We model the wrapper as a transition system over cooperative tasks:
each task advances deterministically; the scheduler chooses which task runs.
A task's atomic steps correspond to the code blocks between suspension
points of the wrapper: the initial block through the cache/lock checks, the
completion of `await func(...)`, the `CACHE.set` population, the
`finally` block (`Event.set` plus `del CACHE_LOCKS[key]`) together with the
return/raise, and a woken follower's re-read of the cache. -/

/-- `CACHE_TTL = 5 * 60`. -/
def CACHE_TTL : Nat := 5 * 60

/-- `CACHE_ERROR_TTL = 10`. -/
def CACHE_ERROR_TTL : Nat := 10

instance {ε α : Type} [DecidableEq ε] [DecidableEq α] : DecidableEq (Except ε α) :=
  fun a b =>
  match a, b with
  | .ok x, .ok y => decidable_of_iff (x = y) (by simp)
  | .ok _, .error _ => isFalse (by simp)
  | .error _, .ok _ => isFalse (by simp)
  | .error x, .error y => decidable_of_iff (x = y) (by simp)

/-- One cache entry: the stored outcome (a value, or an exception cached by
the error path) and its absolute expiry time. -/
structure CEntry where
  out : Except PyErr PyVal
  expires : Nat
deriving DecidableEq

/-- Program counter of one task running the `cacheable` wrapper. -/
inductive TaskPC where
  | start
  | fetching (idx : Nat)
  | gotResult (o : Except PyErr PyVal)
  | populated (o : Except PyErr PyVal)
  | waiting
  | woken
  | done (r : Except PyErr PyVal)
deriving DecidableEq

/-- One task: the cache key of its invocation, and its program counter. -/
structure Caller where
  key : String
  pc : TaskPC
deriving DecidableEq

/-- Global state: the cache store, the keys holding an in-flight gate, the
clock, the number of fetches started so far, and the tasks. -/
structure SFSys where
  cache : List (String × CEntry)
  locks : List String
  time : Nat
  fetchCount : Nat
  tasks : List Caller
deriving DecidableEq

/-- Raw store lookup, ignoring expiry. -/
def lookupRaw (cache : List (String × CEntry)) (k : String) : Option CEntry :=
  match cache with
  | [] => Option.none
  | (k', e) :: rest => if k' = k then some e else lookupRaw rest k

/-- Store update (`CACHE.set`): overwrite the entry for `k`, or append. -/
def cacheSet (cache : List (String × CEntry)) (k : String) (e : CEntry) :
    List (String × CEntry) :=
  match cache with
  | [] => [(k, e)]
  | (k', e') :: rest =>
      if k' = k then (k, e) :: rest else (k', e') :: cacheSet rest k e

/-- `CACHE.get(key)`: `None` once the entry's TTL has elapsed. -/
def cacheGet (s : SFSys) (k : String) : Option (Except PyErr PyVal) :=
  match lookupRaw s.cache k with
  | some e => if s.time < e.expires then some e.out else Option.none
  | Option.none => Option.none

/-- TTL chosen when populating the store: `CACHE_TTL` for a success,
`CACHE_ERROR_TTL` for an exception (lines 78 and 81). -/
def ttlOf : Except PyErr PyVal → Nat
  | .ok _ => CACHE_TTL
  | .error _ => CACHE_ERROR_TTL

/-- Replace task `i`'s program counter. -/
def setPC (s : SFSys) (i : Nat) (t : Caller) (p : TaskPC) : SFSys :=
  { s with tasks := s.tasks.set i { t with pc := p } }

/-- `Event.set()`: every task waiting on key `k` wakes. -/
def wakeAll (ts : List Caller) (k : String) : List Caller :=
  ts.map fun t => if t.key = k ∧ t.pc = .waiting then { t with pc := .woken } else t

/-- The deterministic next step of task `i`, if it can run.  `oracle n` is
the outcome of the `n`-th execution of the wrapped fetch. -/
def stepOf (oracle : Nat → Except PyErr PyVal) (s : SFSys) (i : Nat) : Option SFSys :=
  match s.tasks[i]? with
  | Option.none => Option.none
  | some t =>
    match t.pc with
    | .start =>
      -- lines 61-74: cached check, error re-raise, lock check, leader entry
      match cacheGet s t.key with
      | some (.error e) => some (setPC s i t (.done (.error e)))
      | some (.ok v) =>
        if truthy v then some (setPC s i t (.done (.ok v)))
        else if s.locks.contains t.key then some (setPC s i t .waiting)
        else some { setPC s i t (.fetching s.fetchCount) with
                      locks := t.key :: s.locks, fetchCount := s.fetchCount + 1 }
      | Option.none =>
        if s.locks.contains t.key then some (setPC s i t .waiting)
        else some { setPC s i t (.fetching s.fetchCount) with
                      locks := t.key :: s.locks, fetchCount := s.fetchCount + 1 }
    | .fetching idx =>
      -- line 77: `await func(...)` completes with the oracle's outcome
      some (setPC s i t (.gotResult (oracle idx)))
    | .gotResult o =>
      -- lines 78 and 81: populate the store (success or error TTL)
      some { setPC s i t (.populated o) with
               cache := cacheSet s.cache t.key ⟨o, s.time + ttlOf o⟩ }
    | .populated o =>
      -- lines 82-87: finally block: signal the event, delete the lock,
      -- return the response or re-raise the error
      some { setPC { s with tasks := wakeAll s.tasks t.key } i t (.done o) with
               locks := s.locks.erase t.key }
    | .waiting => Option.none
    | .woken =>
      -- lines 70-71: re-read the cache after the leader's signal
      match cacheGet s t.key with
      | some (.error e) => some (setPC s i t (.done (.error e)))
      | some (.ok v) => some (setPC s i t (.done (.ok v)))
      | Option.none => some (setPC s i t (.done (.ok PyVal.none)))
    | .done _ => Option.none

/-- Run a schedule: each entry names the task that takes its next step (a
blocked or finished task is skipped). -/
def runSched (oracle : Nat → Except PyErr PyVal) (s : SFSys) (sched : List Nat) : SFSys :=
  sched.foldl (fun s' i => (stepOf oracle s' i).getD s') s

/-- A schedule respects the two-concurrent-callers scenario when every task
that performs its initial step does so while no store entry exists for its
key. -/
def schedOk (oracle : Nat → Except PyErr PyVal) : SFSys → List Nat → Bool
  | _, [] => true
  | s, i :: rest =>
    (match s.tasks[i]? with
     | some t =>
       match t.pc with
       | .start => (lookupRaw s.cache t.key).isNone
       | _ => true
     | Option.none => true) &&
    schedOk oracle ((stepOf oracle s i).getD s) rest

/-- All tasks have returned or raised. -/
def allDone (s : SFSys) : Bool :=
  s.tasks.all fun t => t.pc matches TaskPC.done _

/-- Initial state: an empty store, no gates, and `n` concurrent callers of
the same cacheable invocation (same key `k`). -/
def initSys (k : String) (t n : Nat) : SFSys :=
  { cache := [], locks := [], time := t, fetchCount := 0,
    tasks := List.replicate n ⟨k, .start⟩ }

/-- A single caller arriving at time `t` with an existing store entry for its
key (used for the TTL claims). -/
def singleCallerSys (k : String) (e : CEntry) (t fc : Nat) : SFSys :=
  { cache := [(k, e)], locks := [], time := t, fetchCount := fc,
    tasks := [⟨k, .start⟩] }

/-- Phase of the two-caller single-flight scenario once a leader exists:
`pld` is the leader's program counter, `pfl` the other caller's.  The
outcome of the one fetch is `oracle 0`. -/
abbrev C1Phase (oracle : Nat → Except PyErr PyVal) (k : String) (tm : Nat)
    (s : SFSys) (pld pfl : TaskPC) : Prop :=
  (s.cache = [] ∧ s.locks = [k] ∧ s.fetchCount = 1 ∧
     (pld = .fetching 0 ∨ pld = .gotResult (oracle 0)) ∧
     (pfl = .start ∨ pfl = .waiting))
  ∨ (s.cache = [(k, ⟨oracle 0, tm + ttlOf (oracle 0)⟩)] ∧ s.locks = [k] ∧
     s.fetchCount = 1 ∧ pld = .populated (oracle 0) ∧
     (pfl = .start ∨ pfl = .waiting))
  ∨ (s.cache = [(k, ⟨oracle 0, tm + ttlOf (oracle 0)⟩)] ∧ s.locks = [] ∧
     s.fetchCount = 1 ∧ pld = .done (oracle 0) ∧
     (pfl = .start ∨ pfl = .woken ∨ pfl = .done (oracle 0)))

/-- Reachable-state invariant of the two-caller single-flight scenario. -/
abbrev C1Inv (oracle : Nat → Except PyErr PyVal) (k : String) (tm : Nat)
    (s : SFSys) : Prop :=
  s.time = tm ∧
  ∃ p0 p1, s.tasks = [⟨k, p0⟩, ⟨k, p1⟩] ∧
    ((s.cache = [] ∧ s.locks = [] ∧ s.fetchCount = 0 ∧
        p0 = .start ∧ p1 = .start)
     ∨ C1Phase oracle k tm s p0 p1 ∨ C1Phase oracle k tm s p1 p0)

/-- Invariant for the gate-signalling claim: any woken follower, and any
leader that has populated the store, sees a store entry for its key; the
gate list never holds duplicates. -/
def GateInv (s : SFSys) : Prop :=
  s.locks.Nodup ∧
  ∀ t ∈ s.tasks,
    (t.pc = .woken → (lookupRaw s.cache t.key).isSome = true) ∧
    (∀ o, t.pc = .populated o → (lookupRaw s.cache t.key).isSome = true)

/-! ## The endpoint tables (const.py)

`ITEM_LOOKUP` maps endpoint paths to the items they serve; the
`ENDPOINT_PRODUCTS` entry holds a nested dict rather than plain strings.
`ENDPOINT_LOOKUP` is built by a dict comprehension over the *reversed*
table, keeping only string items; since later assignments in a dict
comprehension overwrite earlier ones, the endpoint declared first wins. -/

/-- One element of an `ITEM_LOOKUP` value list: a plain field name, or the
nested dict under `ENDPOINT_PRODUCTS`. -/
inductive TItem where
  | s (x : String)
  | d (m : List (String × List String))
deriving DecidableEq

def ENDPOINT_BATTERY_INFO : String := "/api/v1/products/battery-info"

def ENDPOINT_DAILY_USAGE : String := "/api/v1/products/voiceaccess/dailyusage"

def ENDPOINT_VA_CHARGE_TIME : String := "/api/v1/products/voiceaccess/chargetime"

def ENDPOINT_VA_CHAIR_STATUS : String := "/api/v1/products/voiceaccess/chairstatus"

def ENDPOINT_VA_USAGE_RECORDS : String := "/api/v1/products/voiceaccess/usagerecords"

def ENDPOINT_PRODUCTS : String := "/api/v1/products"

/-- `ITEM_LOOKUP` (const.py lines 97-173), in declaration order. -/
def ITEM_LOOKUP : List (String × List TItem) :=
  [ (ENDPOINT_BATTERY_INFO,
      [ .s "stateOfHealth", .s "stateOfCharge", .s "charging",
        .s "chargeTimeLeft", .s "distanceLeft", .s "localDistanceLeft",
        .s "indoorDriveTime", .s "maxIndoorDriveTime", .s "distanceUnit",
        .s "maxAmpereHours", .s "ampereHoursLeft", .s "maxDistanceLeft",
        .s "localTimestamp", .s "localTimestamp" ]),
    (ENDPOINT_DAILY_USAGE,
      [ .s "distance", .s "distanceUnit", .s "adjustments" ]),
    (ENDPOINT_VA_CHARGE_TIME,
      [ .s "unknown", .s "chargingNow", .s "chargeTimeLeft",
        .s "minutes", .s "hours" ]),
    (ENDPOINT_VA_CHAIR_STATUS,
      [ .s "status" ]),
    (ENDPOINT_VA_USAGE_RECORDS,
      [ .s "distanceRecord", .s "distanceUnit", .s "distanceRecordDate",
        .s "seatingRecord", .s "seatingRecordDate" ]),
    (ENDPOINT_PRODUCTS,
      [ .d [ ("_id",
          [ "WCSerial", "BrandId", "Model", "Manufactured", "ICSHardware",
            "Status", "previousStatus", "customerCode", "hideGPSPosition",
            "Contract", "LinNodes", "lastUpdated", "mostRecent", "battery",
            "serviceAgreements", "customizations", "functions", "deleted",
            "__v", "createdAt", "updatedAt", "FirstUse", "timezone",
            "PCSerial", "telecom", "unitType", "permocellInfo", "publicKey",
            "publicKeyDate", "correlationIdCounter", "certificates" ]) ] ]) ]

/-- Assignment into a Python dict under construction: overwrite the entry
for `k` if present, else append (insertion order preserved). -/
def dictAssign (d : List (String × String)) (k v : String) : List (String × String) :=
  match d with
  | [] => [(k, v)]
  | (k', v') :: rest =>
      if k' = k then (k, v) :: rest else (k', v') :: dictAssign rest k v

/-- `ENDPOINT_LOOKUP` (const.py lines 176-181): a dict comprehension over
`list(ITEM_LOOKUP.items())[::-1]`, keeping string items only; each
assignment overwrites any earlier one for the same field name. -/
def ENDPOINT_LOOKUP : List (String × String) :=
  (ITEM_LOOKUP.reverse).foldl
    (fun acc p =>
      p.2.foldl
        (fun acc it =>
          match it with
          | .s x => dictAssign acc x p.1
          | .d _ => acc)
        acc)
    []

/-- `ENDPOINT_LOOKUP.get(item)`. -/
def endpointLookupGet (x : String) : Option String :=
  (ENDPOINT_LOOKUP.find? fun p => p.1 = x).map (·.2)

/-- `ITEM_LOOKUP[endpoint]`, which may fail with a `KeyError`. -/
def itemLookupGet (ep : String) : Option (List TItem) :=
  (ITEM_LOOKUP.find? fun p => p.1 = ep).map (·.2)

/-- Whether a declared endpoint's item list mentions field `x` as a string
item. -/
def declaresItem (p : String × List TItem) (x : String) : Bool :=
  p.2.contains (TItem.s x)

/-- Number of declared endpoints whose item list mentions `x`. -/
def countDeclaring (x : String) : Nat :=
  (ITEM_LOOKUP.filter (declaresItem · x)).length

/-- The endpoint declared first among those declaring `x`. -/
def firstDeclaring (x : String) : Option String :=
  (ITEM_LOOKUP.find? (declaresItem · x)).map (·.1)

/-- The endpoint declared last among those declaring `x`. -/
def lastDeclaring (x : String) : Option String :=
  (ITEM_LOOKUP.reverse.find? (declaresItem · x)).map (·.1)

/-- Every field name declared as a string item somewhere in `ITEM_LOOKUP`. -/
def allFieldNames : List String :=
  ITEM_LOOKUP.foldr
    (fun p acc =>
      p.2.foldr
        (fun it acc' => match it with | .s x => x :: acc' | .d _ => acc')
        acc)
    []

/-- The endpoint-validation prefix of `request_item` (mypermobil.py lines
417-426): the membership guard tests the supplied endpoint against the keys
of `ENDPOINT_LOOKUP` (which are field names), and the item-membership check
indexes `ITEM_LOOKUP` directly, which raises `KeyError` when the endpoint is
not one of its keys.  Returns the endpoint that would be fetched. -/
def request_item_endpoint (item : String) (endpoint : Option String) :
    Except PyErr String :=
  let pass2 : String → Except PyErr String := fun ep =>
    match itemLookupGet ep with
    | Option.none => .error (KeyErrorExc ep)
    | some items =>
        if items.contains (TItem.s item) then .ok ep
        else .error (MyPermobilClientException (item ++ " not in endpoint " ++ ep))
  match endpoint with
  | Option.none =>
      -- `None in ENDPOINT_LOOKUP` is false, so line 418's branch runs
      match endpointLookupGet item with
      | some ep => pass2 ep
      | Option.none =>
          .error (MyPermobilClientException ("No endpoint for item: " ++ item))
  | some e =>
      if (endpointLookupGet e).isSome then pass2 e
      else .error (MyPermobilClientException ("Invalid endpoint " ++ e))

/-! ## Dates

`validate_expiration_date` parses `%Y-%m-%d` with `datetime.strptime` and
compares the resulting midnight datetime against `datetime.now()`;
`request_application_token` computes `now + timedelta(days=365)` and formats
it back.  Calendar arithmetic uses the standard civil-from-days conversion. -/

/-- A calendar date. -/
structure PyDate where
  year : Nat
  month : Nat
  day : Nat
deriving DecidableEq

/-- A datetime: a date plus a time-of-day (in, say, microseconds; only its
order matters). -/
structure PyDateTime where
  date : PyDate
  tod : Nat
deriving DecidableEq

/-- Gregorian leap year. -/
def isLeapYear (y : Nat) : Bool :=
  decide (y % 4 = 0) && (!decide (y % 100 = 0) || decide (y % 400 = 0))

/-- Days in a month. -/
def daysInMonth (y m : Nat) : Nat :=
  if m = 1 ∨ m = 3 ∨ m = 5 ∨ m = 7 ∨ m = 8 ∨ m = 10 ∨ m = 12 then 31
  else if m = 4 ∨ m = 6 ∨ m = 9 ∨ m = 11 then 30
  else if m = 2 then (if isLeapYear y then 29 else 28)
  else 0

/-- All characters are ASCII digits. -/
def allDigitsB (t : List Char) : Bool := t.all Char.isDigit

/-- Split a character list at every occurrence of `c` (like `str.split`). -/
def splitChar (c : Char) : List Char → List (List Char)
  | [] => [[]]
  | x :: rest =>
      if x = c then [] :: splitChar c rest
      else
        match splitChar c rest with
        | [] => [[x]]
        | p :: ps => (x :: p) :: ps

/-- Decimal value of a digit list. -/
def digitsToNat (cs : List Char) : Nat :=
  cs.foldl (fun acc c => acc * 10 + (c.toNat - 48)) 0

/-- `datetime.strptime(s, "%Y-%m-%d")`: a four-digit year, a one- or
two-digit month in 1..12, a one- or two-digit day in 1..31, then the
constructor's year and day-of-month validation. -/
def parseDateYMD (s : String) : Option PyDate :=
  match splitChar '-' s.data with
  | [ys, ms, ds] =>
      if (ys.length = 4 ∧ allDigitsB ys = true) ∧
         ((ms.length = 1 ∨ ms.length = 2) ∧ allDigitsB ms = true) ∧
         ((ds.length = 1 ∨ ds.length = 2) ∧ allDigitsB ds = true) then
        let y := digitsToNat ys
        let m := digitsToNat ms
        let d := digitsToNat ds
        if 1 ≤ y ∧ 1 ≤ m ∧ m ≤ 12 ∧ 1 ≤ d ∧ d ≤ 31 ∧ d ≤ daysInMonth y m then
          some ⟨y, m, d⟩
        else Option.none
      else Option.none
  | _ => Option.none

/-- Strict order on dates. -/
def dateLtB (a b : PyDate) : Bool :=
  decide (a.year < b.year) ||
    (decide (a.year = b.year) &&
      (decide (a.month < b.month) ||
        (decide (a.month = b.month) && decide (a.day < b.day))))

/-- Strict order on datetimes. -/
def dtLtB (a b : PyDateTime) : Bool :=
  dateLtB a.date b.date || (decide (a.date = b.date) && decide (a.tod < b.tod))

/-- Days since 0000-03-01 of a civil date. -/
def daysFromCivil (dt : PyDate) : Nat :=
  let y := if dt.month ≤ 2 then dt.year - 1 else dt.year
  let era := y / 400
  let yoe := y % 400
  let mp := (dt.month + 9) % 12
  let doy := (153 * mp + 2) / 5 + dt.day - 1
  let doe := yoe * 365 + yoe / 4 - yoe / 100 + doy
  era * 146097 + doe

/-- Civil date of a day count since 0000-03-01. -/
def civilFromDays (z : Nat) : PyDate :=
  let era := z / 146097
  let doe := z % 146097
  let yoe := (doe - doe / 1460 + doe / 36524 - doe / 146096) / 365
  let y := yoe + era * 400
  let doy := doe - (365 * yoe + yoe / 4 - yoe / 100)
  let mp := (5 * doy + 2) / 153
  let d := doy - (153 * mp + 2) / 5 + 1
  let m := if mp < 10 then mp + 3 else mp - 9
  ⟨(if m ≤ 2 then y + 1 else y), m, d⟩

/-- `date + timedelta(days=n)`. -/
def addDays (d : PyDate) (n : Nat) : PyDate :=
  civilFromDays (daysFromCivil d + n)

/-- Two-digit zero padding. -/
def pad2 (n : Nat) : String := if n < 10 then "0" ++ toString n else toString n

/-- Four-digit zero padding. -/
def pad4 (n : Nat) : String :=
  if n < 10 then "000" ++ toString n
  else if n < 100 then "00" ++ toString n
  else if n < 1000 then "0" ++ toString n
  else toString n

/-- `date.strftime("%Y-%m-%d")`. -/
def formatDate (d : PyDate) : String :=
  pad4 d.year ++ "-" ++ pad2 d.month ++ "-" ++ pad2 d.day

/-! ## Validators (mypermobil.py lines 92-143)

Python fields hold `None` or a string, so validators take `Option String`;
`not x` is true for both `None` and the empty string. -/

/-- Python falsiness of an optional string. -/
def falsyOpt : Option String → Bool
  | Option.none => true
  | some s => s == ""

/-- `re.match(r"[^@]+@[^@]+\.[^@]+", s)` on the tail after the first `@`:
some position `j ≥ 1` holds a dot, everything before it is `@`-free, and a
non-`@` character follows. -/
def emailTailOk (r : List Char) : Bool :=
  (List.range r.length).any fun j =>
    decide (1 ≤ j) && (r.getD j '@' == '.') &&
      (r.take j).all (fun c => !(c == '@')) &&
      decide (j + 1 < r.length) && !(r.getD (j + 1) '@' == '@')

/-- Whether `EMAIL_REGEX` matches at the start of `s`: the pattern's `@`
must match the first `@`, preceded by at least one character. -/
def emailOk (s : String) : Bool :=
  match s.data.findIdx? (fun c => c == '@') with
  | some i => decide (0 < i) && emailTailOk (s.data.drop (i + 1))
  | Option.none => false

/-- `validate_email`. -/
def validate_email (email : Option String) : Except PyErr String :=
  if falsyOpt email then .error (MyPermobilClientException "Missing email")
  else
    match email with
    | some s =>
        if emailOk s then .ok s
        else .error (MyPermobilClientException "Invalid email")
    | Option.none => .error (MyPermobilClientException "Missing email")

/-- `validate_code`. -/
def validate_code (code : Option String) : Except PyErr String :=
  if falsyOpt code then .error (MyPermobilClientException "Missing code")
  else
    match code with
    | some s =>
        if !allDigitsB s.data then .error (MyPermobilClientException "Code must be a number")
        else if s.length ≠ 6 then
          .error (MyPermobilClientException "Code must be 6 digits long")
        else .ok s
    | Option.none => .error (MyPermobilClientException "Missing code")

/-- `validate_token`. -/
def validate_token (token : Option String) : Except PyErr String :=
  if falsyOpt token then .error (MyPermobilClientException "Missing token")
  else
    match token with
    | some s =>
        if s.length ≠ 256 then .error (MyPermobilClientException "Invalid token")
        else .ok s
    | Option.none => .error (MyPermobilClientException "Missing token")

/-- `validate_expiration_date`: parse failure and in-the-past dates fail
(the parsed datetime is at midnight, so `date < datetime.now()`). -/
def validate_expiration_date (expiration : Option String) (now : PyDateTime) :
    Except PyErr String :=
  if falsyOpt expiration then
    .error (MyPermobilClientException "Missing expiration date")
  else
    match expiration with
    | some s =>
        match parseDateYMD s with
        | Option.none => .error (MyPermobilClientException "Invalid expiration date")
        | some d =>
            if dtLtB ⟨d, 0⟩ now then .error (MyPermobilClientException "Expired token")
            else .ok s
    | Option.none => .error (MyPermobilClientException "Missing expiration date")

/-- `validate_region`: `region.startswith` checks on the character lists. -/
def validate_region (region : Option String) : Except PyErr String :=
  if falsyOpt region then .error (MyPermobilClientException "Missing region")
  else
    match region with
    | some s =>
        if !("https://".data.isPrefixOf s.data) && !("http://".data.isPrefixOf s.data) then
          .error (MyPermobilClientException "Region missing protocol")
        else .ok s
    | Option.none => .error (MyPermobilClientException "Missing region")

/-! ## The session object (class `MyPermobil`) -/

/-- Local state of a `MyPermobil` session (the aiohttp session handle is not
modelled). -/
structure MPState where
  application : Option String
  email : Option String
  region : Option String
  code : Option String
  token : Option String
  expiration_date : Option String
  request_timeout : Nat
  authenticated : Bool
deriving DecidableEq

/-- `set_email` (lines 192-196). -/
def set_email (st : MPState) (email : Option String) : Except PyErr MPState :=
  if st.authenticated then
    .error (MyPermobilClientException "Cannot change email after authentication")
  else
    match validate_email email with
    | .ok v => .ok { st with email := some v }
    | .error e => .error e

/-- `set_region` (lines 198-202). -/
def set_region (st : MPState) (region : Option String) : Except PyErr MPState :=
  if st.authenticated then
    .error (MyPermobilClientException "Cannot change region after authentication")
  else
    match validate_region region with
    | .ok v => .ok { st with region := some v }
    | .error e => .error e

/-- `set_code` (lines 204-208). -/
def set_code (st : MPState) (code : Option String) : Except PyErr MPState :=
  if st.authenticated then
    .error (MyPermobilClientException "Cannot change code after authentication")
  else
    match validate_code code with
    | .ok v => .ok { st with code := some v }
    | .error e => .error e

/-- `set_token` (lines 210-214). -/
def set_token (st : MPState) (token : Option String) : Except PyErr MPState :=
  if st.authenticated then
    .error (MyPermobilClientException "Cannot change token after authentication")
  else
    match validate_token token with
    | .ok v => .ok { st with token := some v }
    | .error e => .error e

/-- `set_expiration_date` (lines 216-220). -/
def set_expiration_date (st : MPState) (expiration : Option String)
    (now : PyDateTime) : Except PyErr MPState :=
  if st.authenticated then
    .error (MyPermobilClientException "Cannot change date after authentication")
  else
    match validate_expiration_date expiration now with
    | .ok v => .ok { st with expiration_date := some v }
    | .error e => .error e

/-- `set_application` (lines 222-226): no validation beyond the
authentication check; the raw argument is assigned. -/
def set_application (st : MPState) (application : Option String) :
    Except PyErr MPState :=
  if st.authenticated then
    .error (MyPermobilClientException "Cannot change app after authentication")
  else .ok { st with application := application }

/-- `self_authenticate` (lines 235-245). -/
def self_authenticate (st : MPState) (now : PyDateTime) : Except PyErr MPState :=
  if st.authenticated then
    .error (MyPermobilClientException "Already authenticated")
  else if falsyOpt st.application then
    .error (MyPermobilClientException "Missing application name")
  else
    match validate_region st.region with
    | .error e => .error e
    | .ok _ =>
      match validate_email st.email with
      | .error e => .error e
      | .ok _ =>
        match validate_token st.token with
        | .error e => .error e
        | .ok _ =>
          match validate_expiration_date st.expiration_date now with
          | .error e => .error e
          | .ok _ => .ok { st with authenticated := true }

/-- `deauthenticate` (lines 247-251): raises when not authenticated, and
otherwise does nothing locally (the body holds only a TODO comment; in
particular the `authenticated` flag is not cleared). -/
def deauthenticate (st : MPState) : Except PyErr MPState :=
  if !st.authenticated then
    .error (MyPermobilClientException "Not authenticated")
  else .ok st

/-! ## `request_application_token` (mypermobil.py lines 355-408) -/

/-- An HTTP response at the level the client consumes it: the status, the
parsed JSON body, and the raw text. -/
structure HttpResponse where
  status : Nat
  jsonBody : PyDict
  text : String
deriving DecidableEq

/-- `if x is None: x = default` on optional strings. -/
def orElseO (a b : Option String) : Option String :=
  match a with
  | some x => some x
  | Option.none => b

/-- `request_application_token`: argument defaulting (note that
`expiration_date` has no `self` fallback), validation, and response
dispatch.  On a 200 response it returns `(token, expiration_date)`, where a
missing expiration date is set to one year from now. -/
def request_application_token (st : MPState)
    (email code region application expiration_date : Option String)
    (resp : HttpResponse) (now : PyDate) : Except PyErr (PyVal × String) :=
  let email := orElseO email st.email
  let code := orElseO code st.code
  let region := orElseO region st.region
  let _application := orElseO application st.application
  if st.authenticated then
    .error (MyPermobilClientException "Already authenticated")
  else
    match validate_email email with
    | .error e => .error e
    | .ok _ =>
      match validate_region region with
      | .error e => .error e
      | .ok _ =>
        match validate_code code with
        | .error e => .error e
        | .ok _ =>
          if resp.status = 200 then
            let token := (resp.jsonBody.get "token").getD PyVal.none
            let expiration :=
              match expiration_date with
              | Option.none => formatDate (addDays now 365)
              | some s => s
            .ok (token, expiration)
          else if resp.status = 401 then
            .error (MyPermobilAPIException (.str "Email not registered for region"))
          else if resp.status = 403 then
            .error (MyPermobilAPIException (.str "Incorrect code"))
          else if resp.status = 400 ∨ resp.status = 500 then
            .error (MyPermobilAPIException
              ((resp.jsonBody.get "error").getD (PyVal.dict resp.jsonBody)))
          else .error (MyPermobilAPIException (.str resp.text))

/-! # Theorems -/

/-! ## Scanner lemmas for cache-key unambiguity -/

theorem scanL_append (st : ScanSt) (xs ys : List Char) :
    scanL st (xs ++ ys) = scanL (scanL st xs) ys :=
  List.foldl_append ..

theorem seg_nil (d : Nat) : Seg [] d := by
  refine ⟨rfl, ?_⟩
  intro p q h
  have hp : p = [] := (List.append_eq_nil.mp h.symm).1
  subst hp
  exact Or.inr le_rfl

theorem seg_append {xs ys : List Char} {d : Nat}
    (hx : Seg xs d) (hy : Seg ys d) : Seg (xs ++ ys) d := by
  refine ⟨by rw [scanL_append, hx.1, hy.1], ?_⟩
  intro p q h
  rcases List.append_eq_append_iff.mp h with ⟨m, hm1, hm2⟩ | ⟨m, hm1, hm2⟩
  · -- p = xs ++ m, with ys = m ++ q
    subst hm1
    rw [scanL_append, hx.1]
    exact hy.2 m q hm2
  · -- xs = p ++ m
    exact hx.2 p m hm1

theorem scan1_plain {c : Char} (d : Nat) (h : plainCharB c = true) :
    scan1 (baseSt d) c = baseSt d := by
  simp only [plainCharB, Bool.not_eq_eq_eq_not, Bool.not_true, Bool.or_eq_false_iff,
    decide_eq_false_iff_not] at h
  simp [scan1, baseSt, h.1.1.1, h.1.1.2, h.1.2, h.2]

theorem seg_plain {d : Nat} : ∀ {cs : List Char},
    cs.all plainCharB = true → Seg cs d
  | [], _ => seg_nil d
  | c :: cs', h => by
    rw [List.all_cons, Bool.and_eq_true] at h
    have ih : Seg cs' d := seg_plain h.2
    refine ⟨?_, ?_⟩
    · show scanL (baseSt d) (c :: cs') = baseSt d
      rw [show (c :: cs' : List Char) = [c] ++ cs' from rfl, scanL_append]
      have h1 : scanL (baseSt d) [c] = baseSt d := scan1_plain d h.1
      rw [h1, ih.1]
    · intro p q hpq
      cases p with
      | nil => exact Or.inr le_rfl
      | cons x p' =>
        simp only [List.cons_append, List.cons.injEq] at hpq
        obtain ⟨rfl, hp'⟩ := hpq
        show AboveAt (scanL (scan1 (baseSt d) c) p') d
        rw [scan1_plain d h.1]
        exact ih.2 p' q hp'

theorem scan_escUnit2 (q x : Char) (d : Nat) :
    scanL ⟨some q, false, d⟩ [bslashC, x] = ⟨some q, false, d⟩ ∧
    ∀ p r, ([bslashC, x] : List Char) = p ++ r →
      (scanL ⟨some q, false, d⟩ p).instr = some q := by
  constructor
  · simp [scanL, scan1]
  · intro p r h
    rcases p with _ | ⟨a, _ | ⟨b, p''⟩⟩
    · simp [scanL]
    · simp only [List.cons_append, List.nil_append, List.cons.injEq] at h
      obtain ⟨rfl, -⟩ := h
      simp [scanL, scan1]
    · simp only [List.cons_append, List.cons.injEq] at h
      obtain ⟨rfl, rfl, h3⟩ := h
      have : p'' = [] := (List.append_eq_nil.mp h3.symm).1
      subst this
      simp [scanL, scan1]

theorem scan_escChar (q c : Char) (d : Nat) :
    scanL ⟨some q, false, d⟩ (escChar q c) = ⟨some q, false, d⟩ ∧
    ∀ p r, escChar q c = p ++ r →
      (scanL ⟨some q, false, d⟩ p).instr = some q := by
  unfold escChar
  by_cases h1 : c = bslashC
  · rw [if_pos h1]; exact scan_escUnit2 q bslashC d
  rw [if_neg h1]
  by_cases h2 : c = q
  · rw [if_pos h2]; exact scan_escUnit2 q q d
  rw [if_neg h2]
  by_cases h3 : c = nlC
  · rw [if_pos h3]; exact scan_escUnit2 q 'n' d
  rw [if_neg h3]
  by_cases h4 : c = tabC
  · rw [if_pos h4]; exact scan_escUnit2 q 't' d
  rw [if_neg h4]
  by_cases h5 : c = crC
  · rw [if_pos h5]; exact scan_escUnit2 q 'r' d
  rw [if_neg h5]
  constructor
  · simp [scanL, scan1, h1, h2]
  · intro p r h
    rcases p with _ | ⟨a, p'⟩
    · simp [scanL]
    · simp only [List.cons_append, List.cons.injEq] at h
      obtain ⟨rfl, h'⟩ := h
      have : p' = [] := (List.append_eq_nil.mp h'.symm).1
      subst this
      simp [scanL, scan1, h1, h2]

theorem scan_escBody (q : Char) (d : Nat) : ∀ (cs : List Char),
    scanL ⟨some q, false, d⟩ (escBody q cs) = ⟨some q, false, d⟩ ∧
    ∀ p r, escBody q cs = p ++ r →
      (scanL ⟨some q, false, d⟩ p).instr = some q
  | [] => by
    constructor
    · rfl
    · intro p r h
      have : p = [] := (List.append_eq_nil.mp (show p ++ r = [] from h.symm)).1
      subst this
      rfl
  | c :: cs' => by
    have hu := scan_escChar q c d
    have ih := scan_escBody q d cs'
    have hb : escBody q (c :: cs') = escChar q c ++ escBody q cs' := by
      simp [escBody]
    constructor
    · rw [hb, scanL_append, hu.1, ih.1]
    · intro p r h
      rw [hb] at h
      rcases List.append_eq_append_iff.mp h with ⟨m, hm1, hm2⟩ | ⟨m, hm1, hm2⟩
      · subst hm1
        rw [scanL_append, hu.1]
        exact ih.2 m r hm2
      · exact hu.2 p m hm1

theorem quoteChoice_cases (s : String) :
    quoteChoice s = squoteC ∨ quoteChoice s = dquoteC := by
  unfold quoteChoice
  split
  · exact Or.inr rfl
  · exact Or.inl rfl

theorem squote_ne_lparen : squoteC ≠ '(' := by decide

theorem squote_ne_rparen : squoteC ≠ ')' := by decide

theorem squote_ne_bslash : squoteC ≠ bslashC := by decide

theorem dquote_ne_lparen : dquoteC ≠ '(' := by decide

theorem dquote_ne_rparen : dquoteC ≠ ')' := by decide

theorem dquote_ne_bslash : dquoteC ≠ bslashC := by decide

theorem scan1_openQuote {q : Char} (d : Nat)
    (hq : q = squoteC ∨ q = dquoteC) :
    scan1 (baseSt d) q = ⟨some q, false, d⟩ := by
  rcases hq with rfl | rfl
  · simp [scan1, baseSt, squote_ne_lparen, squote_ne_rparen]
  · simp [scan1, baseSt, dquote_ne_lparen, dquote_ne_rparen]

theorem scan1_closeQuote {q : Char} (d : Nat)
    (hq : q = squoteC ∨ q = dquoteC) :
    scan1 ⟨some q, false, d⟩ q = baseSt d := by
  rcases hq with rfl | rfl
  · simp [scan1, baseSt, squote_ne_bslash]
  · simp [scan1, baseSt, dquote_ne_bslash]

theorem seg_reprStrL (s : String) (d : Nat) : Seg (reprStrL s) d := by
  have hq := quoteChoice_cases s
  have hbody := scan_escBody (quoteChoice s) d s.data
  have hshape : reprStrL s =
      quoteChoice s :: (escBody (quoteChoice s) s.data ++ [quoteChoice s]) := rfl
  constructor
  · rw [hshape]
    show scanL (scan1 (baseSt d) (quoteChoice s))
      (escBody (quoteChoice s) s.data ++ [quoteChoice s]) = baseSt d
    rw [scan1_openQuote d hq, scanL_append, hbody.1]
    show scan1 ⟨some (quoteChoice s), false, d⟩ (quoteChoice s) = baseSt d
    exact scan1_closeQuote d hq
  · intro p r hpr
    rw [hshape] at hpr
    cases p with
    | nil => exact Or.inr le_rfl
    | cons x p' =>
      simp only [List.cons_append, List.cons.injEq] at hpr
      obtain ⟨rfl, hp'⟩ := hpr
      show AboveAt (scanL (scan1 (baseSt d) (quoteChoice s)) p') d
      rw [scan1_openQuote d hq]
      rcases List.append_eq_append_iff.mp hp'.symm with ⟨m, hm1, hm2⟩ | ⟨m, hm1, hm2⟩
      · -- escBody = p' ++ m
        exact Or.inl (by rw [hbody.2 p' m hm1]; rfl)
      · -- p' = escBody ++ m, [quoteChoice s] = m ++ r
        subst hm1
        rw [scanL_append, hbody.1]
        rcases m with _ | ⟨y, m'⟩
        · exact Or.inl rfl
        · simp only [List.cons_append, List.cons.injEq] at hm2
          obtain ⟨rfl, hm'⟩ := hm2
          have : m' = [] := (List.append_eq_nil.mp hm'.symm).1
          subst this
          rw [show scanL ⟨some (quoteChoice s), false, d⟩ [quoteChoice s] =
                scan1 ⟨some (quoteChoice s), false, d⟩ (quoteChoice s) from rfl,
              scan1_closeQuote d hq]
          exact Or.inr le_rfl

theorem digitC_plain : ∀ (n : Nat), plainCharB (digitC n) = true
  | 0 => by decide
  | 1 => by decide
  | 2 => by decide
  | 3 => by decide
  | 4 => by decide
  | 5 => by decide
  | 6 => by decide
  | 7 => by decide
  | 8 => by decide
  | 9 => by decide
  | _ + 10 => by rw [show digitC (_ + 10) = '0' from rfl]; decide

theorem hexDigitC_plain : ∀ (n : Nat), plainCharB (hexDigitC n) = true
  | 0 => by decide
  | 1 => by decide
  | 2 => by decide
  | 3 => by decide
  | 4 => by decide
  | 5 => by decide
  | 6 => by decide
  | 7 => by decide
  | 8 => by decide
  | 9 => by decide
  | 10 => by decide
  | 11 => by decide
  | 12 => by decide
  | 13 => by decide
  | 14 => by decide
  | 15 => by decide
  | _ + 16 => by rw [show hexDigitC (_ + 16) = '0' from rfl]; decide

theorem decChars_plain (n : Nat) : (decChars n).all plainCharB = true := by
  unfold decChars
  split
  · simp [digitC_plain]
  · rw [List.all_append]
    simp [digitC_plain, decChars_plain (n / 10)]
  decreasing_by exact Nat.div_lt_self (by omega) (by omega)

theorem hexChars_plain (n : Nat) : (hexChars n).all plainCharB = true := by
  unfold hexChars
  split
  · simp [hexDigitC_plain]
  · rw [List.all_append]
    simp [hexDigitC_plain, hexChars_plain (n / 16)]
  decreasing_by exact Nat.div_lt_self (by omega) (by omega)

theorem intChars_plain (n : Int) : (intChars n).all plainCharB = true := by
  unfold intChars
  split
  · rw [List.all_cons, Bool.and_eq_true]
    exact ⟨by decide, decChars_plain _⟩
  · exact decChars_plain _

theorem objChars_plain (a : Nat) : (objChars a).all plainCharB = true := by
  unfold objChars
  rw [List.all_append, List.all_append]
  refine Bool.and_eq_true .. |>.mpr ⟨Bool.and_eq_true .. |>.mpr ⟨by decide, ?_⟩, by decide⟩
  exact hexChars_plain a

mutual

theorem seg_reprVal : ∀ (v : PyVal) (d : Nat), Seg (reprVal v) d
  | .str s, d => seg_reprStrL s d
  | .int n, d => seg_plain (intChars_plain n)
  | .bool b, d => by
      cases b
      · exact seg_plain (by decide)
      · exact seg_plain (by decide)
  | .none, d => seg_plain (by decide)
  | .obj a, d => seg_plain (objChars_plain a)
  | .dict dd, d => by
      rw [show reprVal (.dict dd) = [lbraceC] ++ (reprEntries dd ++ [rbraceC]) from rfl]
      exact seg_append (seg_plain (by decide))
        (seg_append (seg_reprEntries dd d) (seg_plain (by decide)))

theorem seg_reprEntries : ∀ (r : PyDict) (d : Nat), Seg (reprEntries r) d
  | .nil, d => seg_nil d
  | .cons k v .nil, d => by
      rw [show reprEntries (.cons k v .nil) =
            reprStrL k ++ ([':', ' '] ++ reprVal v) from rfl]
      exact seg_append (seg_reprStrL k d)
        (seg_append (seg_plain (by decide)) (seg_reprVal v d))
  | .cons k v (.cons k2 v2 r), d => by
      rw [show reprEntries (.cons k v (.cons k2 v2 r)) =
            (reprStrL k ++ ([':', ' '] ++ reprVal v)) ++
              ([',', ' '] ++ reprEntries (.cons k2 v2 r)) from by
          show reprStrL k ++ (':' :: ' ' :: reprVal v) ++
              (',' :: ' ' :: reprEntries (.cons k2 v2 r)) = _
          simp]
      exact seg_append
        (seg_append (seg_reprStrL k d)
          (seg_append (seg_plain (by decide)) (seg_reprVal v d)))
        (seg_append (seg_plain (by decide)) (seg_reprEntries (.cons k2 v2 r) d))

end

theorem seg_reprListSep : ∀ (vs : List PyVal) (d : Nat), Seg (reprListSep vs) d
  | [], d => seg_nil d
  | [v], d => seg_reprVal v d
  | v :: v2 :: rest, d => by
      rw [show reprListSep (v :: v2 :: rest) =
            reprVal v ++ ([',', ' '] ++ reprListSep (v2 :: rest)) from rfl]
      exact seg_append (seg_reprVal v d)
        (seg_append (seg_plain (by decide)) (seg_reprListSep (v2 :: rest) d))

theorem seg_tupleMid : ∀ (vs : List PyVal) (d : Nat), Seg (tupleMid vs) d
  | [], d => seg_nil d
  | [v], d => by
      rw [show tupleMid [v] = reprVal v ++ [','] from rfl]
      exact seg_append (seg_reprVal v d) (seg_plain (by decide))
  | v :: v2 :: rest, d => by
      rw [show tupleMid (v :: v2 :: rest) = reprListSep (v :: v2 :: rest) from rfl]
      exact seg_reprListSep (v :: v2 :: rest) d

theorem scan1_lparen (d : Nat) : scan1 (baseSt d) '(' = baseSt (d + 1) := by
  simp [scan1, baseSt]

theorem scan1_rparen (d : Nat) : scan1 (baseSt (d + 1)) ')' = baseSt d := by
  simp [scan1, baseSt]

theorem reprTupleL_scan (args : List PyVal) (d : Nat) :
    scanL (baseSt d) (reprTupleL args) = baseSt d ∧
    StrictInner (reprTupleL args) d := by
  have hmid := seg_tupleMid args (d + 1)
  constructor
  · show scanL (scan1 (baseSt d) '(') (tupleMid args ++ [')']) = baseSt d
    rw [scan1_lparen, scanL_append, hmid.1]
    exact scan1_rparen d
  · intro p q hpq hp hq
    rcases p with _ | ⟨x, p'⟩
    · exact absurd rfl hp
    have hx : x = '(' ∧ tupleMid args ++ [')'] = p' ++ q := by
      have := hpq
      simp only [reprTupleL, List.cons_append, List.cons.injEq] at this
      exact ⟨this.1.symm, this.2⟩
    obtain ⟨rfl, hp'⟩ := hx
    show (scanL (scan1 (baseSt d) '(') p').instr.isSome = true ∨
      d + 1 ≤ (scanL (scan1 (baseSt d) '(') p').depth
    rw [scan1_lparen]
    rcases List.append_eq_append_iff.mp hp' with ⟨m, hm1, hm2⟩ | ⟨m, hm1, hm2⟩
    · -- p' = tupleMid ++ m, [')'] = m ++ q
      subst hm1
      rw [scanL_append, hmid.1]
      rcases m with _ | ⟨y, m'⟩
      · exact Or.inr le_rfl
      · simp only [List.cons_append, List.cons.injEq] at hm2
        obtain ⟨rfl, hm'⟩ := hm2
        exact absurd (List.append_eq_nil.mp hm'.symm).2 hq
    · -- tupleMid = p' ++ m
      exact hmid.2 p' m hm1

theorem tuple_cancel (a a' : List PyVal) (K K' : List Char)
    (h : reprTupleL a ++ K = reprTupleL a' ++ K') :
    reprTupleL a = reprTupleL a' ∧ K = K' := by
  rcases List.append_eq_append_iff.mp h with ⟨m, hm1, hm2⟩ | ⟨m, hm1, hm2⟩
  · -- reprTupleL a' = reprTupleL a ++ m
    rcases m with _ | ⟨c, m'⟩
    · rw [List.append_nil] at hm1
      exact ⟨hm1.symm, by rw [hm1] at h; exact List.append_cancel_left h⟩
    · exfalso
      have hstrict := (reprTupleL_scan a' 0).2 (reprTupleL a) (c :: m') hm1
        (by rw [reprTupleL]; exact List.cons_ne_nil _ _) (List.cons_ne_nil _ _)
      rw [(reprTupleL_scan a 0).1] at hstrict
      rcases hstrict with h1 | h1
      · simp [baseSt] at h1
      · simp [baseSt] at h1
  · -- reprTupleL a = reprTupleL a' ++ m
    rcases m with _ | ⟨c, m'⟩
    · rw [List.append_nil] at hm1
      exact ⟨hm1, by rw [hm1] at h; exact List.append_cancel_left h⟩
    · exfalso
      have hstrict := (reprTupleL_scan a 0).2 (reprTupleL a') (c :: m') hm1
        (by rw [reprTupleL]; exact List.cons_ne_nil _ _) (List.cons_ne_nil _ _)
      rw [(reprTupleL_scan a' 0).1] at hstrict
      rcases hstrict with h1 | h1
      · simp [baseSt] at h1
      · simp [baseSt] at h1

theorem name_cancel : ∀ (xs ys us vs : List Char),
    (∀ c ∈ xs, c ≠ '(') → (∀ c ∈ ys, c ≠ '(') →
    (∃ t, us = '(' :: t) → (∃ t, vs = '(' :: t) →
    xs ++ us = ys ++ vs → xs = ys ∧ us = vs
  | [], ys, us, vs => by
      intro _ hy hu hv h
      cases ys with
      | nil => exact ⟨rfl, by simpa using h⟩
      | cons y ys' =>
          exfalso
          obtain ⟨t, rfl⟩ := hu
          simp only [List.nil_append, List.cons_append, List.cons.injEq] at h
          exact hy y (List.mem_cons_self ..) h.1.symm
  | x :: xs', ys, us, vs => by
      intro hx hy hu hv h
      cases ys with
      | nil =>
          exfalso
          obtain ⟨t, rfl⟩ := hv
          simp only [List.nil_append, List.cons_append, List.cons.injEq] at h
          exact hx x (List.mem_cons_self ..) h.1
      | cons y ys' =>
          simp only [List.cons_append, List.cons.injEq] at h
          obtain ⟨rfl, h2⟩ := h
          have ih := name_cancel xs' ys' us vs
            (fun c hc => hx c (List.mem_cons_of_mem _ hc))
            (fun c hc => hy c (List.mem_cons_of_mem _ hc)) hu hv h2
          exact ⟨by rw [ih.1], ih.2⟩

/-- C9: cache-key derivation is a pure deterministic function of the
operation name and the serialized positional and keyword arguments; two
invocations whose operation names (Python identifiers, hence free of `(`)
or serialized argument tuples or dicts differ produce different keys,
because the key's three components can be recovered from the key. -/
theorem cacheKey_deterministic_and_separating :
    (∀ (f : String) (a : List PyVal) (kw : PyDict)
        (f' : String) (a' : List PyVal) (kw' : PyDict),
        f = f' → a = a' → kw = kw' → cacheKey f a kw = cacheKey f' a' kw') ∧
    (∀ (f : String) (a : List PyVal) (kw : PyDict)
        (f' : String) (a' : List PyVal) (kw' : PyDict),
        (∀ c ∈ f.data, c ≠ '(') → (∀ c ∈ f'.data, c ≠ '(') →
        cacheKey f a kw = cacheKey f' a' kw' →
        f = f' ∧ strOfTuple a = strOfTuple a' ∧ strOfKwargs kw = strOfKwargs kw') := by
  constructor
  · rintro f a kw f' a' kw' rfl rfl rfl
    rfl
  · intro f a kw f' a' kw' hf hf' h
    have hdata : f.data ++ (reprTupleL a ++ reprKwargsL kw)
        = f'.data ++ (reprTupleL a' ++ reprKwargsL kw') := by
      have h1 := congrArg String.data h
      simpa [cacheKey, strOfTuple, strOfKwargs, String.data_append,
        List.append_assoc] using h1
    have hn := name_cancel f.data f'.data _ _ hf hf'
      ⟨(tupleMid a ++ [')']) ++ reprKwargsL kw, rfl⟩
      ⟨(tupleMid a' ++ [')']) ++ reprKwargsL kw', rfl⟩ hdata
    obtain ⟨hfd, htail⟩ := hn
    have hfe : f = f' := by
      cases f
      cases f'
      simp_all
    have ht := tuple_cancel a a' _ _ htail
    exact ⟨hfe, congrArg String.mk ht.1, congrArg String.mk ht.2⟩

/-- Witness for C9 at a concrete `request_regions` invocation. -/
theorem cacheKey_deterministic_and_separating_witness :
    cacheKey "request_regions" [PyVal.obj 255]
        (PyDict.cons "include_icons" (PyVal.bool false) PyDict.nil) =
      cacheKey "request_regions" [PyVal.obj 255]
        (PyDict.cons "include_icons" (PyVal.bool false) PyDict.nil) ∧
    ("request_regions" : String) = "request_regions" ∧
    strOfTuple [PyVal.obj 255] = strOfTuple [PyVal.obj 255] ∧
    strOfKwargs (PyDict.cons "include_icons" (PyVal.bool false) PyDict.nil) =
      strOfKwargs (PyDict.cons "include_icons" (PyVal.bool false) PyDict.nil) :=
  ⟨cacheKey_deterministic_and_separating.1 _ _ _ _ _ _ rfl rfl rfl,
   cacheKey_deterministic_and_separating.2 _ _ _ _ _ _
     (by decide) (by decide) rfl⟩

/-! ## Single-flight cache lemmas -/

theorem lookupRaw_cacheSet_self (c : List (String × CEntry)) (k : String) (e : CEntry) :
    lookupRaw (cacheSet c k e) k = some e := by
  induction c with
  | nil => simp [cacheSet, lookupRaw]
  | cons p rest ih =>
      obtain ⟨pk, pe⟩ := p
      by_cases h : pk = k
      · simp [cacheSet, lookupRaw, h]
      · simpa [cacheSet, lookupRaw, h] using ih

theorem lookupRaw_cacheSet_isSome (c : List (String × CEntry)) (k k' : String)
    (e : CEntry) (h : (lookupRaw c k').isSome = true) :
    (lookupRaw (cacheSet c k e) k').isSome = true := by
  induction c with
  | nil => simp [lookupRaw] at h
  | cons p rest ih =>
      obtain ⟨pk, pe⟩ := p
      by_cases h1 : pk = k
      · subst h1
        by_cases h2 : pk = k'
        · simp [cacheSet, lookupRaw, h2]
        · simp only [lookupRaw, if_neg h2] at h
          simp [cacheSet, lookupRaw, h2, h]
      · by_cases h2 : pk = k'
        · subst h2
          simp [cacheSet, lookupRaw, h1]
        · simp only [lookupRaw, if_neg h2] at h
          simp [cacheSet, lookupRaw, h1, h2]
          exact ih h

theorem single_step_fresh (oracle : Nat → Except PyErr PyVal) (k : String)
    (e : CEntry) (t fc : Nat) (hexp : e.expires ≤ t) :
    runSched oracle (singleCallerSys k e t fc) [0, 0, 0, 0] =
      { cache := [(k, ⟨oracle fc, t + ttlOf (oracle fc)⟩)], locks := [],
        time := t, fetchCount := fc + 1, tasks := [⟨k, .done (oracle fc)⟩] } := by
  have h1 : stepOf oracle (singleCallerSys k e t fc) 0 =
      some { cache := [(k, e)], locks := [k], time := t, fetchCount := fc + 1,
             tasks := [⟨k, .fetching fc⟩] } := by
    simp [stepOf, singleCallerSys, cacheGet, lookupRaw, setPC,
      Nat.not_lt.mpr hexp]
  simp only [runSched, List.foldl_cons, h1, Option.getD_some]
  have h2 : stepOf oracle
      { cache := [(k, e)], locks := [k], time := t, fetchCount := fc + 1,
        tasks := ([⟨k, .fetching fc⟩] : List Caller) } 0 =
      some { cache := [(k, e)], locks := [k], time := t, fetchCount := fc + 1,
             tasks := [⟨k, .gotResult (oracle fc)⟩] } := by
    simp [stepOf, setPC]
  simp only [h2, Option.getD_some]
  have h3 : stepOf oracle
      { cache := [(k, e)], locks := [k], time := t, fetchCount := fc + 1,
        tasks := ([⟨k, .gotResult (oracle fc)⟩] : List Caller) } 0 =
      some { cache := [(k, ⟨oracle fc, t + ttlOf (oracle fc)⟩)], locks := [k],
             time := t, fetchCount := fc + 1,
             tasks := [⟨k, .populated (oracle fc)⟩] } := by
    simp [stepOf, setPC, cacheSet]
  simp only [h3, Option.getD_some]
  have h4 : stepOf oracle
      { cache := [(k, ⟨oracle fc, t + ttlOf (oracle fc)⟩)], locks := [k],
        time := t, fetchCount := fc + 1,
        tasks := ([⟨k, .populated (oracle fc)⟩] : List Caller) } 0 =
      some { cache := [(k, ⟨oracle fc, t + ttlOf (oracle fc)⟩)], locks := [],
             time := t, fetchCount := fc + 1,
             tasks := [⟨k, .done (oracle fc)⟩] } := by
    simp [stepOf, setPC, wakeAll, List.erase_cons]
  simp only [h4, Option.getD_some, runSched, List.foldl_nil]

/-- C3: a fetch error is cached under the operation's key with the shorter
failure TTL; any call within that window re-raises the identical error
object (same class and message) without a new fetch starting; once the
failure TTL has expired the next call runs exactly one fresh attempt. -/
theorem error_cached_short_ttl_and_replayed :
    CACHE_ERROR_TTL < CACHE_TTL ∧
    (∀ (oracle : Nat → Except PyErr PyVal) (s : SFSys) (i : Nat)
        (t : Caller) (e : PyErr),
      s.tasks[i]? = some t → t.pc = .gotResult (.error e) →
      stepOf oracle s i =
        some { setPC s i t (.populated (.error e)) with
                 cache := cacheSet s.cache t.key
                   ⟨.error e, s.time + CACHE_ERROR_TTL⟩ } ∧
      lookupRaw (cacheSet s.cache t.key ⟨.error e, s.time + CACHE_ERROR_TTL⟩)
          t.key = some ⟨.error e, s.time + CACHE_ERROR_TTL⟩) ∧
    (∀ (oracle : Nat → Except PyErr PyVal) (k : String) (e : PyErr)
        (texp t fc : Nat), t < texp →
      stepOf oracle (singleCallerSys k ⟨.error e, texp⟩ t fc) 0 =
        some { cache := [(k, ⟨.error e, texp⟩)], locks := [], time := t,
               fetchCount := fc, tasks := [⟨k, .done (.error e)⟩] }) ∧
    (∀ (oracle : Nat → Except PyErr PyVal) (k : String) (e : PyErr)
        (texp t fc : Nat), texp ≤ t →
      runSched oracle (singleCallerSys k ⟨.error e, texp⟩ t fc) [0, 0, 0, 0] =
        { cache := [(k, ⟨oracle fc, t + ttlOf (oracle fc)⟩)], locks := [],
          time := t, fetchCount := fc + 1,
          tasks := [⟨k, .done (oracle fc)⟩] }) := by
  refine ⟨by decide, ?_, ?_, ?_⟩
  · intro oracle s i t e h1 h2
    constructor
    · simp [stepOf, h1, h2, ttlOf]
    · exact lookupRaw_cacheSet_self ..
  · intro oracle k e texp t fc h
    simp [stepOf, singleCallerSys, cacheGet, lookupRaw, setPC, h]
  · intro oracle k e texp t fc h
    exact single_step_fresh oracle k ⟨.error e, texp⟩ t fc h

/-- Witness for C3 at a concrete error and concrete times. -/
theorem error_cached_short_ttl_and_replayed_witness :
    (stepOf (fun _ => .ok (.int 1))
        { cache := [], locks := ["k"], time := 5, fetchCount := 1,
          tasks := [⟨"k", .gotResult (.error (MyPermobilClientException "boom"))⟩] } 0 =
      some { cache := [("k", ⟨.error (MyPermobilClientException "boom"),
                             5 + CACHE_ERROR_TTL⟩)],
             locks := ["k"], time := 5, fetchCount := 1,
             tasks := [⟨"k", .populated (.error (MyPermobilClientException "boom"))⟩] }) ∧
    (stepOf (fun _ => .ok (.int 1))
        (singleCallerSys "k" ⟨.error (MyPermobilClientException "boom"), 15⟩ 6 1) 0 =
      some { cache := [("k", ⟨.error (MyPermobilClientException "boom"), 15⟩)],
             locks := [], time := 6, fetchCount := 1,
             tasks := [⟨"k", .done (.error (MyPermobilClientException "boom"))⟩] }) ∧
    (runSched (fun _ => .ok (.int 1))
        (singleCallerSys "k" ⟨.error (MyPermobilClientException "boom"), 15⟩ 15 1)
        [0, 0, 0, 0] =
      { cache := [("k", ⟨.ok (.int 1), 15 + CACHE_TTL⟩)], locks := [],
        time := 15, fetchCount := 2, tasks := [⟨"k", .done (.ok (.int 1))⟩] }) := by
  refine ⟨?_, ?_, ?_⟩
  · exact ((error_cached_short_ttl_and_replayed.2.1 (fun _ => .ok (.int 1))
      { cache := [], locks := ["k"], time := 5, fetchCount := 1,
        tasks := [⟨"k", .gotResult (.error (MyPermobilClientException "boom"))⟩] }
      0 ⟨"k", .gotResult (.error (MyPermobilClientException "boom"))⟩
      (MyPermobilClientException "boom") (by decide) rfl).1).trans (by decide)
  · exact (error_cached_short_ttl_and_replayed.2.2.1 (fun _ => .ok (.int 1)) "k"
      (MyPermobilClientException "boom") 15 6 1 (by decide))
  · exact (error_cached_short_ttl_and_replayed.2.2.2 (fun _ => .ok (.int 1)) "k"
      (MyPermobilClientException "boom") 15 15 1 (by decide)).trans (by decide)

/-- C2 (amended): a cached *truthy* success is returned within the success
TTL with no new fetch executing; once the TTL has expired, the next call
triggers exactly one new execution of the wrapped fetch. -/
theorem success_cached_truthy_hit_and_expiry_refetch :
    (∀ (oracle : Nat → Except PyErr PyVal) (k : String) (v : PyVal)
        (texp t fc : Nat), truthy v = true → t < texp →
      stepOf oracle (singleCallerSys k ⟨.ok v, texp⟩ t fc) 0 =
        some { cache := [(k, ⟨.ok v, texp⟩)], locks := [], time := t,
               fetchCount := fc, tasks := [⟨k, .done (.ok v)⟩] }) ∧
    (∀ (oracle : Nat → Except PyErr PyVal) (k : String) (v : PyVal)
        (texp t fc : Nat), texp ≤ t →
      runSched oracle (singleCallerSys k ⟨.ok v, texp⟩ t fc) [0, 0, 0, 0] =
        { cache := [(k, ⟨oracle fc, t + ttlOf (oracle fc)⟩)], locks := [],
          time := t, fetchCount := fc + 1,
          tasks := [⟨k, .done (oracle fc)⟩] }) := by
  constructor
  · intro oracle k v texp t fc hv h
    simp [stepOf, singleCallerSys, cacheGet, lookupRaw, setPC, h, hv]
  · intro oracle k v texp t fc h
    exact single_step_fresh oracle k ⟨.ok v, texp⟩ t fc h

/-- Witness for the amended C2 at a concrete truthy value and times. -/
theorem success_cached_truthy_hit_and_expiry_refetch_witness :
    (stepOf (fun _ => .ok (.int 9))
        (singleCallerSys "k" ⟨.ok (.int 5), 300⟩ 10 1) 0 =
      some { cache := [("k", ⟨.ok (.int 5), 300⟩)], locks := [], time := 10,
             fetchCount := 1, tasks := [⟨"k", .done (.ok (.int 5))⟩] }) ∧
    (runSched (fun _ => .ok (.int 9))
        (singleCallerSys "k" ⟨.ok (.int 5), 300⟩ 300 1) [0, 0, 0, 0] =
      { cache := [("k", ⟨.ok (.int 9), 300 + CACHE_TTL⟩)], locks := [],
        time := 300, fetchCount := 2, tasks := [⟨"k", .done (.ok (.int 9))⟩] }) :=
  ⟨(success_cached_truthy_hit_and_expiry_refetch.1 (fun _ => .ok (.int 9)) "k"
      (.int 5) 300 10 1 (by decide) (by decide)),
   (success_cached_truthy_hit_and_expiry_refetch.2 (fun _ => .ok (.int 9)) "k"
      (.int 5) 300 300 1 (by decide)).trans (by decide)⟩

/-- C2 counterexample: a cached *falsy* success (for example the empty dict
`request_regions` returns when every region is filtered out) is treated as a
cache miss inside its TTL: the truthiness test at line 62 skips it, a new
fetch executes, and the caller returns the new outcome instead of the cached
value. -/
theorem success_cached_falsy_refetches_within_ttl :
    truthy (PyVal.dict .nil) = false ∧
    (0 : Nat) < CACHE_TTL ∧
    runSched (fun _ => .ok (.int 7))
        (singleCallerSys "k" ⟨.ok (.dict .nil), CACHE_TTL⟩ 0 0) [0, 0, 0, 0] =
      { cache := [("k", ⟨.ok (.int 7), CACHE_TTL⟩)], locks := [], time := 0,
        fetchCount := 1, tasks := [⟨"k", .done (.ok (.int 7))⟩] } := by
  refine ⟨rfl, by decide, ?_⟩
  decide

/-! ## The gate invariant (for C6) -/

theorem mem_of_getElem?_tasks {l : List Caller} {i : Nat} {a : Caller}
    (h : l[i]? = some a) : a ∈ l := by
  obtain ⟨hlt, rfl⟩ := List.getElem?_eq_some.mp h
  exact List.getElem_mem hlt

theorem gateInv_setPC {s : SFSys} {i : Nat} {t : Caller} {p : TaskPC}
    (hInv : GateInv s) (hp1 : p ≠ .woken) (hp2 : ∀ o, p ≠ .populated o) :
    GateInv (setPC s i t p) := by
  refine ⟨hInv.1, ?_⟩
  intro u hu
  rcases List.mem_or_eq_of_mem_set hu with hu' | rfl
  · exact hInv.2 u hu'
  · exact ⟨fun h => absurd h hp1, fun o h => absurd h (hp2 o)⟩

theorem gateInv_step (oracle : Nat → Except PyErr PyVal) (s : SFSys) (i : Nat)
    (s' : SFSys) (hInv : GateInv s) (hstep : stepOf oracle s i = some s') :
    GateInv s' := by
  rcases hts : s.tasks[i]? with _ | t
  · simp [stepOf, hts] at hstep
  rcases hpc : t.pc with _ | idx | o | o | _ | _ | r
  · -- start
    simp only [stepOf, hts, hpc] at hstep
    rcases hget : cacheGet s t.key with _ | o
    · simp only [hget] at hstep
      by_cases hl : s.locks.contains t.key = true
      · rw [if_pos hl] at hstep
        cases hstep
        exact gateInv_setPC hInv (by simp) (by simp)
      · rw [if_neg hl] at hstep
        cases hstep
        refine ⟨?_, ?_⟩
        · exact List.Nodup.cons (by simpa using hl) hInv.1
        · intro u hu
          rcases List.mem_or_eq_of_mem_set hu with hu' | rfl
          · exact hInv.2 u hu'
          · exact ⟨by simp, by simp⟩
    · rcases o with e | v
      · simp only [hget] at hstep
        cases hstep
        exact gateInv_setPC hInv (by simp) (by simp)
      · simp only [hget] at hstep
        by_cases hv : truthy v = true
        · rw [if_pos hv] at hstep
          cases hstep
          exact gateInv_setPC hInv (by simp) (by simp)
        · rw [if_neg hv] at hstep
          by_cases hl : s.locks.contains t.key = true
          · rw [if_pos hl] at hstep
            cases hstep
            exact gateInv_setPC hInv (by simp) (by simp)
          · rw [if_neg hl] at hstep
            cases hstep
            refine ⟨?_, ?_⟩
            · exact List.Nodup.cons (by simpa using hl) hInv.1
            · intro u hu
              rcases List.mem_or_eq_of_mem_set hu with hu' | rfl
              · exact hInv.2 u hu'
              · exact ⟨by simp, by simp⟩
  · -- fetching
    simp only [stepOf, hts, hpc] at hstep
    cases hstep
    exact gateInv_setPC hInv (by simp) (by simp)
  · -- gotResult: populate the store
    simp only [stepOf, hts, hpc] at hstep
    cases hstep
    refine ⟨hInv.1, ?_⟩
    intro u hu
    rcases List.mem_or_eq_of_mem_set hu with hu' | rfl
    · refine ⟨fun h => ?_, fun o' h => ?_⟩
      · exact lookupRaw_cacheSet_isSome _ _ _ _ ((hInv.2 u hu').1 h)
      · exact lookupRaw_cacheSet_isSome _ _ _ _ ((hInv.2 u hu').2 o' h)
    · refine ⟨by simp, fun o' _ => ?_⟩
      simp [lookupRaw_cacheSet_self]
  · -- populated: signal and delete the gate
    simp only [stepOf, hts, hpc] at hstep
    cases hstep
    refine ⟨hInv.1.erase t.key, ?_⟩
    intro u hu
    rcases List.mem_or_eq_of_mem_set hu with hu' | rfl
    · obtain ⟨w, hw, rfl⟩ := List.mem_map.mp hu'
      by_cases hcond : w.key = t.key ∧ w.pc = .waiting
      · rw [if_pos hcond]
        refine ⟨fun _ => ?_, fun o' h => ?_⟩
        · show (lookupRaw s.cache w.key).isSome = true
          rw [hcond.1]
          exact (hInv.2 t (mem_of_getElem?_tasks hts)).2 o hpc
        · simp at h
      · rw [if_neg hcond]
        exact hInv.2 w hw
    · exact ⟨by simp, by simp⟩
  · -- waiting is blocked
    simp [stepOf, hts, hpc] at hstep
  · -- woken
    simp only [stepOf, hts, hpc] at hstep
    rcases hget : cacheGet s t.key with _ | o
    · simp only [hget] at hstep
      cases hstep
      exact gateInv_setPC hInv (by simp) (by simp)
    · rcases o with e | v
      · simp only [hget] at hstep
        cases hstep
        exact gateInv_setPC hInv (by simp) (by simp)
      · simp only [hget] at hstep
        cases hstep
        exact gateInv_setPC hInv (by simp) (by simp)
  · -- done is finished
    simp [stepOf, hts, hpc] at hstep

theorem gateInv_run (oracle : Nat → Except PyErr PyVal) :
    ∀ (sched : List Nat) (s : SFSys), GateInv s →
      GateInv (runSched oracle s sched)
  | [], s, h => h
  | i :: rest, s, h => by
      rw [show runSched oracle s (i :: rest) =
            runSched oracle ((stepOf oracle s i).getD s) rest from rfl]
      rcases hstep : stepOf oracle s i with _ | s'
      · exact gateInv_run oracle rest s h
      · exact gateInv_run oracle rest s' (gateInv_step oracle s i s' h hstep)

theorem gateInv_init (k : String) (tm n : Nat) : GateInv (initSys k tm n) := by
  refine ⟨List.nodup_nil, ?_⟩
  intro t ht
  have := List.eq_of_mem_replicate ht
  subst this
  exact ⟨by simp, by simp⟩

/-- C6: in every reachable state of the scenario, a leader that has just
finished the wrapped fetch (normal return `.ok` or raised error `.error`)
first populates the store for its key while the gate is still in place, and
its `finally` step then removes the gate and wakes every waiting follower
for that key, with the store already populated; a woken follower never
observes an empty store for its key. -/
theorem gate_release_and_population_order
    (oracle : Nat → Except PyErr PyVal) (k : String) (tm n : Nat)
    (sched : List Nat) (i : Nat) (t : Caller) (o : Except PyErr PyVal) :
    ((runSched oracle (initSys k tm n) sched).tasks[i]? = some t →
      t.pc = .gotResult o →
      stepOf oracle (runSched oracle (initSys k tm n) sched) i =
        some { setPC (runSched oracle (initSys k tm n) sched) i t (.populated o) with
                 cache := cacheSet (runSched oracle (initSys k tm n) sched).cache t.key
                   ⟨o, (runSched oracle (initSys k tm n) sched).time + ttlOf o⟩ }) ∧
    ((runSched oracle (initSys k tm n) sched).tasks[i]? = some t →
      t.pc = .populated o →
      stepOf oracle (runSched oracle (initSys k tm n) sched) i =
        some { setPC { runSched oracle (initSys k tm n) sched with
                         tasks := wakeAll (runSched oracle (initSys k tm n) sched).tasks t.key }
                 i t (.done o) with
               locks := (runSched oracle (initSys k tm n) sched).locks.erase t.key } ∧
      t.key ∉ (runSched oracle (initSys k tm n) sched).locks.erase t.key ∧
      (lookupRaw (runSched oracle (initSys k tm n) sched).cache t.key).isSome = true ∧
      (∀ j u, j ≠ i →
        (runSched oracle (initSys k tm n) sched).tasks[j]? = some u →
        u.key = t.key → u.pc = .waiting →
        ((wakeAll (runSched oracle (initSys k tm n) sched).tasks t.key).set i
            { t with pc := .done o })[j]? = some ⟨t.key, .woken⟩)) ∧
    ((runSched oracle (initSys k tm n) sched).tasks[i]? = some t →
      t.pc = .woken →
      (lookupRaw (runSched oracle (initSys k tm n) sched).cache t.key).isSome = true) := by
  have hInv : GateInv (runSched oracle (initSys k tm n) sched) :=
    gateInv_run oracle sched (initSys k tm n) (gateInv_init k tm n)
  refine ⟨?_, ?_, ?_⟩
  · intro h1 h2
    simp [stepOf, h1, h2]
  · intro h1 h2
    refine ⟨by simp [stepOf, h1, h2], ?_, ?_, ?_⟩
    · intro hm
      exact ((List.Nodup.mem_erase_iff hInv.1).mp hm).1 rfl
    · exact (hInv.2 t (mem_of_getElem?_tasks h1)).2 o h2
    · intro j u hji hju hkey hwait
      rw [List.getElem?_set_ne (fun h => hji h.symm), wakeAll,
        List.getElem?_map, hju]
      show some (if u.key = t.key ∧ u.pc = .waiting then { u with pc := .woken } else u) =
        some ⟨t.key, .woken⟩
      rw [if_pos ⟨hkey, hwait⟩]
      cases u
      simp only [Caller.mk.injEq, Option.some.injEq]
      simp_all
  · intro h1 h2
    exact (hInv.2 t (mem_of_getElem?_tasks h1)).1 h2

/-- Witness for C6: a leader and one waiting follower; after the leader's
populate step the store holds the entry, and the signal step wakes the
follower, which then reads a non-empty store. -/
theorem gate_release_and_population_order_witness :
    ((runSched (fun _ => .ok (.int 3)) (initSys "k" 0 2) [0, 1, 0, 0]).tasks[0]? =
        some ⟨"k", .populated (.ok (.int 3))⟩) ∧
    "k" ∉ (runSched (fun _ => .ok (.int 3)) (initSys "k" 0 2) [0, 1, 0, 0]).locks.erase "k" ∧
    (lookupRaw (runSched (fun _ => .ok (.int 3)) (initSys "k" 0 2) [0, 1, 0, 0]).cache
        "k").isSome = true ∧
    ((wakeAll (runSched (fun _ => .ok (.int 3)) (initSys "k" 0 2) [0, 1, 0, 0]).tasks
        "k").set 0 ⟨"k", .done (.ok (.int 3))⟩)[1]? = some ⟨"k", .woken⟩ := by
  have h := (gate_release_and_population_order (fun _ => .ok (.int 3)) "k" 0 2
    [0, 1, 0, 0] 0 ⟨"k", .populated (.ok (.int 3))⟩ (.ok (.int 3))).2.1
    (by decide) rfl
  exact ⟨by decide, h.2.1, h.2.2.1,
    h.2.2.2 1 ⟨"k", .waiting⟩ (by decide) (by decide) rfl rfl⟩

/-! ## The two-caller single-flight invariant (for C1) -/

theorem ttlOf_pos (o : Except PyErr PyVal) : 0 < ttlOf o := by
  cases o <;> simp [ttlOf, CACHE_TTL, CACHE_ERROR_TTL]

theorem c1_step (oracle : Nat → Except PyErr PyVal) (k : String) (tm : Nat)
    (s : SFSys) (i : Nat) (hInv : C1Inv oracle k tm s)
    (hcond : ∀ t, s.tasks[i]? = some t → t.pc = .start →
      (lookupRaw s.cache t.key).isNone = true) :
    C1Inv oracle k tm ((stepOf oracle s i).getD s) := by
  obtain ⟨htime, p0, p1, htasks, hphase⟩ := hInv
  obtain ⟨sc, sl, st, sf, stks⟩ := s
  simp only at htasks htime hphase hcond
  subst htasks htime
  have hlt : st < st + ttlOf (oracle 0) := Nat.lt_add_of_pos_right (ttlOf_pos _)
  rcases i with _ | _ | i2
  · -- task 0 steps
    rcases hphase with ⟨hc, hl, hf, hp0, hp1⟩ | hph | hph
    · -- no leader yet: task 0 becomes the leader
      subst hc hl hf hp0 hp1
      have hstep : stepOf oracle ⟨[], [], st, 0, [⟨k, .start⟩, ⟨k, .start⟩]⟩ 0 =
          some ⟨[], [k], st, 1, [⟨k, .fetching 0⟩, ⟨k, .start⟩]⟩ := by
        simp [stepOf, cacheGet, lookupRaw, setPC]
      rw [hstep]
      exact ⟨rfl, .fetching 0, .start, rfl,
        Or.inr (Or.inl (Or.inl ⟨rfl, rfl, rfl, Or.inl rfl, Or.inl rfl⟩))⟩
    · -- task 0 is the leader
      rcases hph with ⟨hc, hl, hf, hpl, hpf⟩ | ⟨hc, hl, hf, hpl, hpf⟩ |
        ⟨hc, hl, hf, hpl, hpf⟩
      · subst hc hl hf
        rcases hpl with rfl | rfl
        · -- the fetch completes
          have hstep : stepOf oracle
              ⟨[], [k], st, 1, [⟨k, .fetching 0⟩, ⟨k, p1⟩]⟩ 0 =
              some ⟨[], [k], st, 1, [⟨k, .gotResult (oracle 0)⟩, ⟨k, p1⟩]⟩ := by
            simp [stepOf, setPC]
          rw [hstep]
          exact ⟨rfl, .gotResult (oracle 0), p1, rfl,
            Or.inr (Or.inl (Or.inl ⟨rfl, rfl, rfl, Or.inr rfl, hpf⟩))⟩
        · -- the leader populates the store
          have hstep : stepOf oracle
              ⟨[], [k], st, 1, [⟨k, .gotResult (oracle 0)⟩, ⟨k, p1⟩]⟩ 0 =
              some ⟨[(k, ⟨oracle 0, st + ttlOf (oracle 0)⟩)], [k], st, 1,
                    [⟨k, .populated (oracle 0)⟩, ⟨k, p1⟩]⟩ := by
            simp [stepOf, setPC, cacheSet]
          rw [hstep]
          exact ⟨rfl, .populated (oracle 0), p1, rfl,
            Or.inr (Or.inl (Or.inr (Or.inl ⟨rfl, rfl, rfl, rfl, hpf⟩)))⟩
      · subst hc hl hf hpl
        -- the leader signals: waiting followers wake, the gate goes away
        rcases hpf with rfl | rfl
        · have hstep : stepOf oracle
              ⟨[(k, ⟨oracle 0, st + ttlOf (oracle 0)⟩)], [k], st, 1,
               [⟨k, .populated (oracle 0)⟩, ⟨k, .start⟩]⟩ 0 =
              some ⟨[(k, ⟨oracle 0, st + ttlOf (oracle 0)⟩)], [], st, 1,
                    [⟨k, .done (oracle 0)⟩, ⟨k, .start⟩]⟩ := by
            simp [stepOf, setPC, wakeAll, List.erase_cons]
          rw [hstep]
          exact ⟨rfl, .done (oracle 0), .start, rfl,
            Or.inr (Or.inl (Or.inr (Or.inr ⟨rfl, rfl, rfl, rfl, Or.inl rfl⟩)))⟩
        · have hstep : stepOf oracle
              ⟨[(k, ⟨oracle 0, st + ttlOf (oracle 0)⟩)], [k], st, 1,
               [⟨k, .populated (oracle 0)⟩, ⟨k, .waiting⟩]⟩ 0 =
              some ⟨[(k, ⟨oracle 0, st + ttlOf (oracle 0)⟩)], [], st, 1,
                    [⟨k, .done (oracle 0)⟩, ⟨k, .woken⟩]⟩ := by
            simp [stepOf, setPC, wakeAll, List.erase_cons]
          rw [hstep]
          exact ⟨rfl, .done (oracle 0), .woken, rfl,
            Or.inr (Or.inl (Or.inr (Or.inr ⟨rfl, rfl, rfl, rfl, Or.inr (Or.inl rfl)⟩)))⟩
      · subst hc hl hf hpl
        -- the leader already returned: no step
        have hstep : stepOf oracle
            ⟨[(k, ⟨oracle 0, st + ttlOf (oracle 0)⟩)], [], st, 1,
             [⟨k, .done (oracle 0)⟩, ⟨k, p1⟩]⟩ 0 = Option.none := by
          simp [stepOf]
        rw [hstep]
        exact ⟨rfl, .done (oracle 0), p1, rfl,
          Or.inr (Or.inl (Or.inr (Or.inr ⟨rfl, rfl, rfl, rfl, hpf⟩)))⟩
    · -- task 1 is the leader; task 0 is the follower
      rcases hph with ⟨hc, hl, hf, hpl, hpf⟩ | ⟨hc, hl, hf, hpl, hpf⟩ |
        ⟨hc, hl, hf, hpl, hpf⟩
      · subst hc hl hf
        rcases hpf with rfl | rfl
        · -- the follower sees the gate and waits
          have hstep : stepOf oracle
              ⟨[], [k], st, 1, [⟨k, .start⟩, ⟨k, p1⟩]⟩ 0 =
              some ⟨[], [k], st, 1, [⟨k, .waiting⟩, ⟨k, p1⟩]⟩ := by
            simp [stepOf, cacheGet, lookupRaw, setPC]
          rw [hstep]
          exact ⟨rfl, .waiting, p1, rfl,
            Or.inr (Or.inr (Or.inl ⟨rfl, rfl, rfl, hpl, Or.inr rfl⟩))⟩
        · -- already waiting: blocked
          have hstep : stepOf oracle
              ⟨[], [k], st, 1, [⟨k, .waiting⟩, ⟨k, p1⟩]⟩ 0 = Option.none := by
            simp [stepOf]
          rw [hstep]
          exact ⟨rfl, .waiting, p1, rfl,
            Or.inr (Or.inr (Or.inl ⟨rfl, rfl, rfl, hpl, Or.inr rfl⟩))⟩
      · subst hc hl hf hpl
        rcases hpf with rfl | rfl
        · -- excluded by the scenario condition: the store is populated
          exfalso
          have := hcond ⟨k, .start⟩ rfl rfl
          simp [lookupRaw] at this
        · have hstep : stepOf oracle
              ⟨[(k, ⟨oracle 0, st + ttlOf (oracle 0)⟩)], [k], st, 1,
               [⟨k, .waiting⟩, ⟨k, .populated (oracle 0)⟩]⟩ 0 = Option.none := by
            simp [stepOf]
          rw [hstep]
          exact ⟨rfl, .waiting, .populated (oracle 0), rfl,
            Or.inr (Or.inr (Or.inr (Or.inl ⟨rfl, rfl, rfl, rfl, Or.inr rfl⟩)))⟩
      · subst hc hl hf hpl
        rcases hpf with rfl | rfl | rfl
        · -- excluded by the scenario condition: the store is populated
          exfalso
          have := hcond ⟨k, .start⟩ rfl rfl
          simp [lookupRaw] at this
        · -- a woken follower re-reads the store and gets the leader's outcome
          rcases ho : oracle 0 with e | v
          · have hstep : stepOf oracle
                ⟨[(k, ⟨oracle 0, st + ttlOf (oracle 0)⟩)], [], st, 1,
                 [⟨k, .woken⟩, ⟨k, .done (oracle 0)⟩]⟩ 0 =
                some ⟨[(k, ⟨oracle 0, st + ttlOf (oracle 0)⟩)], [], st, 1,
                      [⟨k, .done (oracle 0)⟩, ⟨k, .done (oracle 0)⟩]⟩ := by
              simp [stepOf, cacheGet, lookupRaw, setPC, hlt, ho, ttlOf, CACHE_TTL, CACHE_ERROR_TTL]
            rw [← ho, hstep]
            exact ⟨rfl, .done (oracle 0), .done (oracle 0), rfl,
              Or.inr (Or.inr (Or.inr (Or.inr ⟨rfl, rfl, rfl, rfl,
                Or.inr (Or.inr rfl)⟩)))⟩
          · have hstep : stepOf oracle
                ⟨[(k, ⟨oracle 0, st + ttlOf (oracle 0)⟩)], [], st, 1,
                 [⟨k, .woken⟩, ⟨k, .done (oracle 0)⟩]⟩ 0 =
                some ⟨[(k, ⟨oracle 0, st + ttlOf (oracle 0)⟩)], [], st, 1,
                      [⟨k, .done (oracle 0)⟩, ⟨k, .done (oracle 0)⟩]⟩ := by
              simp [stepOf, cacheGet, lookupRaw, setPC, hlt, ho, ttlOf, CACHE_TTL, CACHE_ERROR_TTL]
            rw [← ho, hstep]
            exact ⟨rfl, .done (oracle 0), .done (oracle 0), rfl,
              Or.inr (Or.inr (Or.inr (Or.inr ⟨rfl, rfl, rfl, rfl,
                Or.inr (Or.inr rfl)⟩)))⟩
        · have hstep : stepOf oracle
              ⟨[(k, ⟨oracle 0, st + ttlOf (oracle 0)⟩)], [], st, 1,
               [⟨k, .done (oracle 0)⟩, ⟨k, .done (oracle 0)⟩]⟩ 0 = Option.none := by
            simp [stepOf]
          rw [hstep]
          exact ⟨rfl, .done (oracle 0), .done (oracle 0), rfl,
            Or.inr (Or.inr (Or.inr (Or.inr ⟨rfl, rfl, rfl, rfl,
              Or.inr (Or.inr rfl)⟩)))⟩
  · -- task 1 steps (mirror image)
    rcases hphase with ⟨hc, hl, hf, hp0, hp1⟩ | hph | hph
    · subst hc hl hf hp0 hp1
      have hstep : stepOf oracle ⟨[], [], st, 0, [⟨k, .start⟩, ⟨k, .start⟩]⟩ 1 =
          some ⟨[], [k], st, 1, [⟨k, .start⟩, ⟨k, .fetching 0⟩]⟩ := by
        simp [stepOf, cacheGet, lookupRaw, setPC]
      rw [hstep]
      exact ⟨rfl, .start, .fetching 0, rfl,
        Or.inr (Or.inr (Or.inl ⟨rfl, rfl, rfl, Or.inl rfl, Or.inl rfl⟩))⟩
    · -- task 0 is the leader; task 1 is the follower
      rcases hph with ⟨hc, hl, hf, hpl, hpf⟩ | ⟨hc, hl, hf, hpl, hpf⟩ |
        ⟨hc, hl, hf, hpl, hpf⟩
      · subst hc hl hf
        rcases hpf with rfl | rfl
        · have hstep : stepOf oracle
              ⟨[], [k], st, 1, [⟨k, p0⟩, ⟨k, .start⟩]⟩ 1 =
              some ⟨[], [k], st, 1, [⟨k, p0⟩, ⟨k, .waiting⟩]⟩ := by
            simp [stepOf, cacheGet, lookupRaw, setPC]
          rw [hstep]
          exact ⟨rfl, p0, .waiting, rfl,
            Or.inr (Or.inl (Or.inl ⟨rfl, rfl, rfl, hpl, Or.inr rfl⟩))⟩
        · have hstep : stepOf oracle
              ⟨[], [k], st, 1, [⟨k, p0⟩, ⟨k, .waiting⟩]⟩ 1 = Option.none := by
            simp [stepOf]
          rw [hstep]
          exact ⟨rfl, p0, .waiting, rfl,
            Or.inr (Or.inl (Or.inl ⟨rfl, rfl, rfl, hpl, Or.inr rfl⟩))⟩
      · subst hc hl hf hpl
        rcases hpf with rfl | rfl
        · exfalso
          have := hcond ⟨k, .start⟩ rfl rfl
          simp [lookupRaw] at this
        · have hstep : stepOf oracle
              ⟨[(k, ⟨oracle 0, st + ttlOf (oracle 0)⟩)], [k], st, 1,
               [⟨k, .populated (oracle 0)⟩, ⟨k, .waiting⟩]⟩ 1 = Option.none := by
            simp [stepOf]
          rw [hstep]
          exact ⟨rfl, .populated (oracle 0), .waiting, rfl,
            Or.inr (Or.inl (Or.inr (Or.inl ⟨rfl, rfl, rfl, rfl, Or.inr rfl⟩)))⟩
      · subst hc hl hf hpl
        rcases hpf with rfl | rfl | rfl
        · exfalso
          have := hcond ⟨k, .start⟩ rfl rfl
          simp [lookupRaw] at this
        · rcases ho : oracle 0 with e | v
          · have hstep : stepOf oracle
                ⟨[(k, ⟨oracle 0, st + ttlOf (oracle 0)⟩)], [], st, 1,
                 [⟨k, .done (oracle 0)⟩, ⟨k, .woken⟩]⟩ 1 =
                some ⟨[(k, ⟨oracle 0, st + ttlOf (oracle 0)⟩)], [], st, 1,
                      [⟨k, .done (oracle 0)⟩, ⟨k, .done (oracle 0)⟩]⟩ := by
              simp [stepOf, cacheGet, lookupRaw, setPC, hlt, ho, ttlOf, CACHE_TTL, CACHE_ERROR_TTL]
            rw [← ho, hstep]
            exact ⟨rfl, .done (oracle 0), .done (oracle 0), rfl,
              Or.inr (Or.inl (Or.inr (Or.inr ⟨rfl, rfl, rfl, rfl,
                Or.inr (Or.inr rfl)⟩)))⟩
          · have hstep : stepOf oracle
                ⟨[(k, ⟨oracle 0, st + ttlOf (oracle 0)⟩)], [], st, 1,
                 [⟨k, .done (oracle 0)⟩, ⟨k, .woken⟩]⟩ 1 =
                some ⟨[(k, ⟨oracle 0, st + ttlOf (oracle 0)⟩)], [], st, 1,
                      [⟨k, .done (oracle 0)⟩, ⟨k, .done (oracle 0)⟩]⟩ := by
              simp [stepOf, cacheGet, lookupRaw, setPC, hlt, ho, ttlOf, CACHE_TTL, CACHE_ERROR_TTL]
            rw [← ho, hstep]
            exact ⟨rfl, .done (oracle 0), .done (oracle 0), rfl,
              Or.inr (Or.inl (Or.inr (Or.inr ⟨rfl, rfl, rfl, rfl,
                Or.inr (Or.inr rfl)⟩)))⟩
        · have hstep : stepOf oracle
              ⟨[(k, ⟨oracle 0, st + ttlOf (oracle 0)⟩)], [], st, 1,
               [⟨k, .done (oracle 0)⟩, ⟨k, .done (oracle 0)⟩]⟩ 1 = Option.none := by
            simp [stepOf]
          rw [hstep]
          exact ⟨rfl, .done (oracle 0), .done (oracle 0), rfl,
            Or.inr (Or.inl (Or.inr (Or.inr ⟨rfl, rfl, rfl, rfl,
              Or.inr (Or.inr rfl)⟩)))⟩
    · -- task 1 is the leader
      rcases hph with ⟨hc, hl, hf, hpl, hpf⟩ | ⟨hc, hl, hf, hpl, hpf⟩ |
        ⟨hc, hl, hf, hpl, hpf⟩
      · subst hc hl hf
        rcases hpl with rfl | rfl
        · have hstep : stepOf oracle
              ⟨[], [k], st, 1, [⟨k, p0⟩, ⟨k, .fetching 0⟩]⟩ 1 =
              some ⟨[], [k], st, 1, [⟨k, p0⟩, ⟨k, .gotResult (oracle 0)⟩]⟩ := by
            simp [stepOf, setPC]
          rw [hstep]
          exact ⟨rfl, p0, .gotResult (oracle 0), rfl,
            Or.inr (Or.inr (Or.inl ⟨rfl, rfl, rfl, Or.inr rfl, hpf⟩))⟩
        · have hstep : stepOf oracle
              ⟨[], [k], st, 1, [⟨k, p0⟩, ⟨k, .gotResult (oracle 0)⟩]⟩ 1 =
              some ⟨[(k, ⟨oracle 0, st + ttlOf (oracle 0)⟩)], [k], st, 1,
                    [⟨k, p0⟩, ⟨k, .populated (oracle 0)⟩]⟩ := by
            simp [stepOf, setPC, cacheSet]
          rw [hstep]
          exact ⟨rfl, p0, .populated (oracle 0), rfl,
            Or.inr (Or.inr (Or.inr (Or.inl ⟨rfl, rfl, rfl, rfl, hpf⟩)))⟩
      · subst hc hl hf hpl
        rcases hpf with rfl | rfl
        · have hstep : stepOf oracle
              ⟨[(k, ⟨oracle 0, st + ttlOf (oracle 0)⟩)], [k], st, 1,
               [⟨k, .start⟩, ⟨k, .populated (oracle 0)⟩]⟩ 1 =
              some ⟨[(k, ⟨oracle 0, st + ttlOf (oracle 0)⟩)], [], st, 1,
                    [⟨k, .start⟩, ⟨k, .done (oracle 0)⟩]⟩ := by
            simp [stepOf, setPC, wakeAll, List.erase_cons]
          rw [hstep]
          exact ⟨rfl, .start, .done (oracle 0), rfl,
            Or.inr (Or.inr (Or.inr (Or.inr ⟨rfl, rfl, rfl, rfl, Or.inl rfl⟩)))⟩
        · have hstep : stepOf oracle
              ⟨[(k, ⟨oracle 0, st + ttlOf (oracle 0)⟩)], [k], st, 1,
               [⟨k, .waiting⟩, ⟨k, .populated (oracle 0)⟩]⟩ 1 =
              some ⟨[(k, ⟨oracle 0, st + ttlOf (oracle 0)⟩)], [], st, 1,
                    [⟨k, .woken⟩, ⟨k, .done (oracle 0)⟩]⟩ := by
            simp [stepOf, setPC, wakeAll, List.erase_cons]
          rw [hstep]
          exact ⟨rfl, .woken, .done (oracle 0), rfl,
            Or.inr (Or.inr (Or.inr (Or.inr ⟨rfl, rfl, rfl, rfl,
              Or.inr (Or.inl rfl)⟩)))⟩
      · subst hc hl hf hpl
        have hstep : stepOf oracle
            ⟨[(k, ⟨oracle 0, st + ttlOf (oracle 0)⟩)], [], st, 1,
             [⟨k, p0⟩, ⟨k, .done (oracle 0)⟩]⟩ 1 = Option.none := by
          simp [stepOf]
        rw [hstep]
        exact ⟨rfl, p0, .done (oracle 0), rfl,
          Or.inr (Or.inr (Or.inr (Or.inr ⟨rfl, rfl, rfl, rfl, hpf⟩)))⟩
  · -- indices past the two callers never step
    have hnone : stepOf oracle ⟨sc, sl, st, sf, [⟨k, p0⟩, ⟨k, p1⟩]⟩ (i2 + 2) =
        Option.none := by
      simp [stepOf]
    rw [hnone]
    exact ⟨rfl, p0, p1, rfl, hphase⟩

theorem c1_run (oracle : Nat → Except PyErr PyVal) (k : String) (tm : Nat) :
    ∀ (sched : List Nat) (s : SFSys), C1Inv oracle k tm s →
      schedOk oracle s sched = true →
      C1Inv oracle k tm (runSched oracle s sched)
  | [], _, h, _ => h
  | i :: rest, s, h, hok => by
      have hok2 := hok
      simp only [schedOk, Bool.and_eq_true] at hok2
      obtain ⟨hhead, htail⟩ := hok2
      have hcond : ∀ t, s.tasks[i]? = some t → t.pc = .start →
          (lookupRaw s.cache t.key).isNone = true := by
        intro t ht hpc
        rw [ht] at hhead
        simp only at hhead
        rw [hpc] at hhead
        exact hhead
      show C1Inv oracle k tm (runSched oracle ((stepOf oracle s i).getD s) rest)
      exact c1_run oracle k tm rest _ (c1_step oracle k tm s i h hcond) htail

/-- C1: two concurrent callers of the same cacheable invocation (same key,
no store entry when either performs its initial check, per `schedOk`): in
every complete interleaving exactly one wrapped fetch executes, and both
callers finish with that single execution's outcome (its value or its
error). -/
theorem single_flight_two_concurrent_callers
    (oracle : Nat → Except PyErr PyVal) (k : String) (tm : Nat) (sched : List Nat)
    (hok : schedOk oracle (initSys k tm 2) sched = true)
    (hdone : allDone (runSched oracle (initSys k tm 2) sched) = true) :
    (runSched oracle (initSys k tm 2) sched).fetchCount = 1 ∧
    ∀ t ∈ (runSched oracle (initSys k tm 2) sched).tasks,
      t.pc = .done (oracle 0) := by
  have hinit : C1Inv oracle k tm (initSys k tm 2) :=
    ⟨rfl, .start, .start, rfl, Or.inl ⟨rfl, rfl, rfl, rfl, rfl⟩⟩
  have hInv := c1_run oracle k tm sched (initSys k tm 2) hinit hok
  obtain ⟨htime, p0, p1, htasks, hphase⟩ := hInv
  simp only [allDone] at hdone
  rw [htasks] at hdone
  simp only [List.all_cons, List.all_nil, Bool.and_eq_true] at hdone
  rcases hphase with ⟨hc, hl, hf, hp0, hp1⟩ | hph | hph
  · subst hp0
    simp at hdone
  · rcases hph with ⟨hc, hl, hf, hpl, hpf⟩ | ⟨hc, hl, hf, hpl, hpf⟩ |
      ⟨hc, hl, hf, hpl, hpf⟩
    · rcases hpl with rfl | rfl <;> simp at hdone
    · rw [hpl] at hdone
      simp at hdone
    · rcases hpf with rfl | rfl | rfl
      · simp at hdone
      · simp at hdone
      · subst hpl
        refine ⟨hf, ?_⟩
        intro t ht
        rw [htasks] at ht
        simp only [List.mem_cons, List.not_mem_nil, or_false] at ht
        rcases ht with rfl | rfl <;> rfl
  · rcases hph with ⟨hc, hl, hf, hpl, hpf⟩ | ⟨hc, hl, hf, hpl, hpf⟩ |
      ⟨hc, hl, hf, hpl, hpf⟩
    · rcases hpl with rfl | rfl <;> simp at hdone
    · rw [hpl] at hdone
      simp at hdone
    · rcases hpf with rfl | rfl | rfl
      · simp at hdone
      · simp at hdone
      · subst hpl
        refine ⟨hf, ?_⟩
        intro t ht
        rw [htasks] at ht
        simp only [List.mem_cons, List.not_mem_nil, or_false] at ht
        rcases ht with rfl | rfl <;> rfl

/-- Witness for C1 at a concrete oracle and a concrete interleaving with one
leader and one follower. -/
theorem single_flight_two_concurrent_callers_witness :
    schedOk (fun _ => .ok (.int 3)) (initSys "k" 0 2) [0, 1, 0, 0, 0, 1] = true ∧
    allDone (runSched (fun _ => .ok (.int 3)) (initSys "k" 0 2)
      [0, 1, 0, 0, 0, 1]) = true ∧
    ((runSched (fun _ => .ok (.int 3)) (initSys "k" 0 2)
        [0, 1, 0, 0, 0, 1]).fetchCount = 1 ∧
     ∀ t ∈ (runSched (fun _ => .ok (.int 3)) (initSys "k" 0 2)
        [0, 1, 0, 0, 0, 1]).tasks, t.pc = .done (.ok (.int 3))) :=
  ⟨by decide, by decide,
   single_flight_two_concurrent_callers (fun _ => .ok (.int 3)) "k" 0
     [0, 1, 0, 0, 0, 1] (by decide) (by decide)⟩

/-! ## Endpoint resolution (C4) and explicit-endpoint validation (C5) -/

/-- C4 counterexample: `"distanceUnit"` is declared under three endpoints;
the last-declared one is the usage-records endpoint, yet `ENDPOINT_LOOKUP`
resolves it to the battery-info endpoint, which is declared first. -/
theorem endpoint_lookup_not_last_declared :
    2 ≤ countDeclaring "distanceUnit" ∧
    lastDeclaring "distanceUnit" = some ENDPOINT_VA_USAGE_RECORDS ∧
    endpointLookupGet "distanceUnit" = some ENDPOINT_BATTERY_INFO ∧
    ENDPOINT_BATTERY_INFO ≠ ENDPOINT_VA_USAGE_RECORDS := by
  refine ⟨by decide, by decide, by decide, by decide⟩

/-- C4 (amended): for every declared field name — in particular every field
name declared under two or more endpoints — resolution returns the endpoint
declared *first* among those declaring it: the comprehension iterates the
reversed table and later assignments overwrite earlier ones, so the
first-declared endpoint's assignment lands last and wins. -/
theorem endpoint_lookup_first_declared_wins :
    ∀ x ∈ allFieldNames, 2 ≤ countDeclaring x →
      endpointLookupGet x = firstDeclaring x := by
  have h : allFieldNames.all
      (fun x => endpointLookupGet x == firstDeclaring x) = true := by decide
  intro x hx _
  exact eq_of_beq (List.all_eq_true.mp h x hx)

/-- Witness for the amended C4 at the thrice-declared `"distanceUnit"`. -/
theorem endpoint_lookup_first_declared_wins_witness :
    ("distanceUnit" ∈ allFieldNames ∧ 2 ≤ countDeclaring "distanceUnit") ∧
    endpointLookupGet "distanceUnit" = firstDeclaring "distanceUnit" :=
  ⟨⟨by decide, by decide⟩,
   endpoint_lookup_first_declared_wins "distanceUnit" (by decide) (by decide)⟩

/-- C5: the battery-info endpoint exists in `ITEM_LOOKUP` and declares
`"stateOfCharge"`, and implicit resolution finds exactly that endpoint — yet
supplying it explicitly is rejected with the `"Invalid endpoint"` usage
error, because line 417 tests membership in `ENDPOINT_LOOKUP`, whose keys
are field names, instead of `ITEM_LOOKUP`, whose keys the item-membership
check on line 425 then indexes. -/
theorem request_item_explicit_endpoint_always_rejected :
    (itemLookupGet ENDPOINT_BATTERY_INFO).isSome = true ∧
    ((itemLookupGet ENDPOINT_BATTERY_INFO).getD []).contains
      (TItem.s "stateOfCharge") = true ∧
    request_item_endpoint "stateOfCharge" Option.none = .ok ENDPOINT_BATTERY_INFO ∧
    request_item_endpoint "stateOfCharge" (some ENDPOINT_BATTERY_INFO) =
      .error (MyPermobilClientException
        ("Invalid endpoint " ++ ENDPOINT_BATTERY_INFO)) ∧
    request_item_endpoint "distanceUnit" (some "distanceUnit") =
      .error (KeyErrorExc "distanceUnit") := by
  refine ⟨by decide, by decide, by decide, by decide, by decide⟩

/-! ## Session state machine (C7, C8) -/

/-- C7 (amended): every setter fails with a usage error once the session is
authenticated; the email, region, code, token and expiration-date setters
succeed exactly when the session is unauthenticated and their validator
accepts, assigning exactly the validated value; the application setter
performs no validation and assigns the raw argument; `self_authenticate`
succeeds and flips the flag exactly when the session is unauthenticated,
the application name is truthy, and region, email, token and expiration
date all validate. -/
theorem session_setters_and_authenticate_spec :
    (∀ st x, st.authenticated = true → set_email st x =
      .error (MyPermobilClientException "Cannot change email after authentication")) ∧
    (∀ st x st', set_email st x = .ok st' ↔
      (st.authenticated = false ∧ ∃ v, validate_email x = .ok v ∧
        st' = { st with email := some v })) ∧
    (∀ st x, st.authenticated = true → set_region st x =
      .error (MyPermobilClientException "Cannot change region after authentication")) ∧
    (∀ st x st', set_region st x = .ok st' ↔
      (st.authenticated = false ∧ ∃ v, validate_region x = .ok v ∧
        st' = { st with region := some v })) ∧
    (∀ st x, st.authenticated = true → set_code st x =
      .error (MyPermobilClientException "Cannot change code after authentication")) ∧
    (∀ st x st', set_code st x = .ok st' ↔
      (st.authenticated = false ∧ ∃ v, validate_code x = .ok v ∧
        st' = { st with code := some v })) ∧
    (∀ st x, st.authenticated = true → set_token st x =
      .error (MyPermobilClientException "Cannot change token after authentication")) ∧
    (∀ st x st', set_token st x = .ok st' ↔
      (st.authenticated = false ∧ ∃ v, validate_token x = .ok v ∧
        st' = { st with token := some v })) ∧
    (∀ st x now, st.authenticated = true → set_expiration_date st x now =
      .error (MyPermobilClientException "Cannot change date after authentication")) ∧
    (∀ st x now st', set_expiration_date st x now = .ok st' ↔
      (st.authenticated = false ∧ ∃ v, validate_expiration_date x now = .ok v ∧
        st' = { st with expiration_date := some v })) ∧
    (∀ st x, st.authenticated = true → set_application st x =
      .error (MyPermobilClientException "Cannot change app after authentication")) ∧
    (∀ st x, st.authenticated = false →
      set_application st x = .ok { st with application := x }) ∧
    (∀ st now st', self_authenticate st now = .ok st' ↔
      (st.authenticated = false ∧ falsyOpt st.application = false ∧
       (validate_region st.region).isOk = true ∧
       (validate_email st.email).isOk = true ∧
       (validate_token st.token).isOk = true ∧
       (validate_expiration_date st.expiration_date now).isOk = true ∧
       st' = { st with authenticated := true })) := by
  refine ⟨?_, ?_, ?_, ?_, ?_, ?_, ?_, ?_, ?_, ?_, ?_, ?_, ?_⟩
  · intro st x h
    simp [set_email, h]
  · intro st x st'
    rcases hb : st.authenticated
    · rcases hv : validate_email x with e | v <;>
        simp [set_email, hb, hv, eq_comm]
    · simp [set_email, hb]
  · intro st x h
    simp [set_region, h]
  · intro st x st'
    rcases hb : st.authenticated
    · rcases hv : validate_region x with e | v <;>
        simp [set_region, hb, hv, eq_comm]
    · simp [set_region, hb]
  · intro st x h
    simp [set_code, h]
  · intro st x st'
    rcases hb : st.authenticated
    · rcases hv : validate_code x with e | v <;>
        simp [set_code, hb, hv, eq_comm]
    · simp [set_code, hb]
  · intro st x h
    simp [set_token, h]
  · intro st x st'
    rcases hb : st.authenticated
    · rcases hv : validate_token x with e | v <;>
        simp [set_token, hb, hv, eq_comm]
    · simp [set_token, hb]
  · intro st x now h
    simp [set_expiration_date, h]
  · intro st x now st'
    rcases hb : st.authenticated
    · rcases hv : validate_expiration_date x now with e | v <;>
        simp [set_expiration_date, hb, hv, eq_comm]
    · simp [set_expiration_date, hb]
  · intro st x h
    simp [set_application, h]
  · intro st x h
    simp [set_application, h]
  · intro st now st'
    rcases hb : st.authenticated
    · rcases ha : falsyOpt st.application
      · rcases hr : validate_region st.region with e | vr
        · simp [self_authenticate, hb, ha, hr, Except.isOk, Except.toBool]
        · rcases he : validate_email st.email with e | ve
          · simp [self_authenticate, hb, ha, hr, he, Except.isOk, Except.toBool]
          · rcases htk : validate_token st.token with e | vt
            · simp [self_authenticate, hb, ha, hr, he, htk, Except.isOk, Except.toBool]
            · rcases hx : validate_expiration_date st.expiration_date now with e | vx
              · simp [self_authenticate, hb, ha, hr, he, htk, hx, Except.isOk, Except.toBool]
              · simp [self_authenticate, hb, ha, hr, he, htk, hx, Except.isOk, Except.toBool,
                  eq_comm]
      · simp [self_authenticate, hb, ha]
    · simp [self_authenticate, hb]

set_option maxRecDepth 4000 in
/-- Witness for the amended C7: a setter refusal on an authenticated
session, and a successful authentication on a fully valid session. -/
theorem session_setters_and_authenticate_spec_witness :
    set_email ⟨some "app", Option.none, Option.none, Option.none, Option.none,
        Option.none, 10, true⟩ (some "x@y.se") =
      .error (MyPermobilClientException "Cannot change email after authentication") ∧
    self_authenticate
      ⟨some "app", some "a@b.se", some "http://r", Option.none,
       some (String.mk (List.replicate 256 'a')), some "2999-01-01", 10, false⟩
      ⟨⟨2026, 10, 12⟩, 0⟩ =
      .ok ⟨some "app", some "a@b.se", some "http://r", Option.none,
           some (String.mk (List.replicate 256 'a')), some "2999-01-01", 10, true⟩ :=
  ⟨session_setters_and_authenticate_spec.1 _ (some "x@y.se") rfl,
   (session_setters_and_authenticate_spec.2.2.2.2.2.2.2.2.2.2.2.2
      ⟨some "app", some "a@b.se", some "http://r", Option.none,
       some (String.mk (List.replicate 256 'a')), some "2999-01-01", 10, false⟩
      ⟨⟨2026, 10, 12⟩, 0⟩ _).mpr
     ⟨rfl, rfl, by decide, by decide, by decide, by decide, rfl⟩⟩

set_option maxRecDepth 4000 in
/-- C7 counterexample: a session whose region, email, token and expiration
date all validate, but whose application name is `None`, is rejected by
`self_authenticate` — so authentication does not succeed "exactly when"
region, email, token and expiration date are valid. -/
theorem authenticate_not_iff_four_validators :
    (validate_region (some "http://r")).isOk = true ∧
    (validate_email (some "a@b.se")).isOk = true ∧
    (validate_token (some (String.mk (List.replicate 256 'a')))).isOk = true ∧
    (validate_expiration_date (some "2999-01-01") ⟨⟨2026, 10, 12⟩, 0⟩).isOk = true ∧
    self_authenticate
      ⟨Option.none, some "a@b.se", some "http://r", Option.none,
       some (String.mk (List.replicate 256 'a')), some "2999-01-01", 10, false⟩
      ⟨⟨2026, 10, 12⟩, 0⟩ =
      .error (MyPermobilClientException "Missing application name") := by
  refine ⟨by decide, by decide, by decide, by decide, by decide⟩

/-- C8 (amended): `deauthenticate` raises a usage error when the session is
not authenticated; when it is authenticated the call has *no* local effect
at all — the state, including the `authenticated` flag, is returned
unchanged (the body holds only a TODO; no remote revocation happens). -/
theorem deauthenticate_spec (st : MPState) :
    (st.authenticated = false →
      deauthenticate st = .error (MyPermobilClientException "Not authenticated")) ∧
    (st.authenticated = true → deauthenticate st = .ok st) := by
  constructor <;> intro h <;> simp [deauthenticate, h]

/-- Witness for the amended C8 at concrete sessions. -/
theorem deauthenticate_spec_witness :
    deauthenticate ⟨some "app", Option.none, Option.none, Option.none,
        Option.none, Option.none, 10, false⟩ =
      .error (MyPermobilClientException "Not authenticated") ∧
    deauthenticate ⟨some "app", Option.none, Option.none, Option.none,
        Option.none, Option.none, 10, true⟩ =
      .ok ⟨some "app", Option.none, Option.none, Option.none,
        Option.none, Option.none, 10, true⟩ :=
  ⟨(deauthenticate_spec _).1 rfl, (deauthenticate_spec _).2 rfl⟩

/-- C8 counterexample: on an authenticated session `deauthenticate` returns
the state unchanged — in particular the `authenticated` flag is still set,
so its local effect is not "clearing the authenticated flag". -/
theorem deauthenticate_does_not_clear_flag :
    deauthenticate ⟨some "app", some "a@b.se", Option.none, Option.none,
        Option.none, Option.none, 10, true⟩ =
      .ok ⟨some "app", some "a@b.se", Option.none, Option.none,
        Option.none, Option.none, 10, true⟩ ∧
    (⟨some "app", some "a@b.se", Option.none, Option.none,
        Option.none, Option.none, 10, true⟩ : MPState).authenticated = true := by
  exact ⟨rfl, rfl⟩

/-! ## `request_application_token` (C10) -/

/-- C10 (amended): on a 200 response with validations passing, the returned
expiration date depends only on the explicit `expiration_date` argument —
the session's stored expiration date is never consulted (the method has no
`self` fallback for it, unlike email, code, region and application).  When
the argument is absent the result is exactly 365 days after the current
date, formatted `YYYY-MM-DD`; when present it is returned unchanged, next
to the token from the response body. -/
theorem request_application_token_expiration_spec
    (st : MPState) (email code region application expiration : Option String)
    (resp : HttpResponse) (now : PyDate)
    (hauth : st.authenticated = false)
    (he : (validate_email (orElseO email st.email)).isOk = true)
    (hr : (validate_region (orElseO region st.region)).isOk = true)
    (hc : (validate_code (orElseO code st.code)).isOk = true)
    (hs : resp.status = 200) :
    request_application_token st email code region application expiration resp now =
      .ok ((resp.jsonBody.get "token").getD PyVal.none,
        match expiration with
        | Option.none => formatDate (addDays now 365)
        | some s => s) := by
  rcases hve : validate_email (orElseO email st.email) with e | v1
  · rw [hve] at he
    simp [Except.isOk, Except.toBool] at he
  rcases hvr : validate_region (orElseO region st.region) with e | v2
  · rw [hvr] at hr
    simp [Except.isOk, Except.toBool] at hr
  rcases hvc : validate_code (orElseO code st.code) with e | v3
  · rw [hvc] at hc
    simp [Except.isOk, Except.toBool] at hc
  simp [request_application_token, hauth, hve, hvr, hvc, hs]

/-- Witness for the amended C10: with an explicit expiration argument the
argument comes back unchanged; the concrete 365-day case is exercised by
the counterexample theorem. -/
theorem request_application_token_expiration_spec_witness :
    request_application_token
      ⟨some "app", some "a@b.se", some "http://r", some "123456", Option.none,
       Option.none, 10, false⟩
      Option.none Option.none Option.none Option.none (some "2031-05-05")
      ⟨200, PyDict.cons "token" (.str "tok") PyDict.nil, ""⟩ ⟨2026, 10, 12⟩ =
      .ok (.str "tok", "2031-05-05") :=
  (request_application_token_expiration_spec
    ⟨some "app", some "a@b.se", some "http://r", some "123456", Option.none,
     Option.none, 10, false⟩
    Option.none Option.none Option.none Option.none (some "2031-05-05")
    ⟨200, PyDict.cons "token" (.str "tok") PyDict.nil, ""⟩ ⟨2026, 10, 12⟩
    rfl (by decide) (by decide) (by decide) rfl).trans (by decide)

/-- C10 counterexample: the session holds the expiration date
`"2030-01-01"` and no argument is supplied, yet a 200 response yields the
generated date `"2027-10-12"` (365 days after 2026-10-12) rather than the
session's date — the session's expiration date is not a fallback. -/
theorem request_application_token_ignores_session_expiration :
    (⟨some "app", some "a@b.se", some "http://r", some "123456", Option.none,
        some "2030-01-01", 10, false⟩ : MPState).expiration_date =
      some "2030-01-01" ∧
    request_application_token
      ⟨some "app", some "a@b.se", some "http://r", some "123456", Option.none,
       some "2030-01-01", 10, false⟩
      Option.none Option.none Option.none Option.none Option.none
      ⟨200, PyDict.cons "token" (.str "tok") PyDict.nil, ""⟩ ⟨2026, 10, 12⟩ =
      .ok (.str "tok", "2027-10-12") ∧
    ("2027-10-12" : String) ≠ "2030-01-01" := by
  refine ⟨rfl, by decide, by decide⟩
